import Mathlib

/-
Verification development for the Canvex synchronization and async-orchestration
engine (frontend scene editor).  The definitions below are a shallow embedding
of the TypeScript source in src/unnamed/part_004: pure helpers become Lean
functions, the element list of the canvas document becomes a `List Element`,
and the stateful save / polling machinery becomes explicit state records with
small-step transition relations.  JavaScript numbers used for geometry are
modelled as rationals; machine-level float behaviour never decides any of the
properties proved here.  External browser primitives (JSON.parse, Date
parsing) are taken as parameters where their internals matter.
-/

namespace Canvex

/-- JSON values as manipulated by the client (element metadata bags, scene
payloads, stream frames).  Numbers are modelled as integers: every numeric
field the verified code paths read or write is integral. -/
inductive Json where
  | null : Json
  | bool (b : Bool) : Json
  | num (n : Int) : Json
  | str (s : String) : Json
  | arr (items : List Json) : Json
  | obj (fields : List (String × Json)) : Json

instance : Inhabited Json := ⟨Json.null⟩

namespace Json

/-- JavaScript truthiness of a JSON value (null, false, 0 and the empty
string are falsy; arrays and objects are always truthy). -/
def truthy : Json → Bool
  | .null => false
  | .bool b => b
  | .num n => n != 0
  | .str s => s != ""
  | .arr _ => true
  | .obj _ => true

/-- Array.isArray. -/
def isArr : Json → Bool
  | .arr _ => true
  | _ => false

/-- Matches the check `value && typeof value === 'object'` used by the source:
true exactly for arrays and objects (JSON null is typeof object but falsy). -/
def isObjLike : Json → Bool
  | .arr _ => true
  | .obj _ => true
  | _ => false

/-- Property read `value?.key`: field lookup on objects, null (undefined)
otherwise. -/
def get (j : Json) (key : String) : Json :=
  match j with
  | .obj fields => (fields.lookup key).getD .null
  | _ => .null

/-- Minimal JSON string escaping (quote and backslash), enough for a
canonical, deterministic serialization. -/
def escapeString (s : String) : String :=
  s.foldl (fun acc c =>
    if c = '"' then acc ++ "\\\""
    else if c = '\\' then acc ++ "\\\\"
    else acc.push c) ""

/-- Deterministic serialization of a JSON value, object keys in insertion
order, mirroring JSON.stringify on values built by the client. -/
def stringify : Json → String
  | .null => "null"
  | .bool b => if b then "true" else "false"
  | .num n => toString n
  | .str s => "\"" ++ escapeString s ++ "\""
  | .arr items => "[" ++ String.intercalate "," (items.attach.map (fun x => stringify x.1)) ++ "]"
  | .obj fields => "\x7b" ++ String.intercalate ","
      (fields.attach.map (fun x => "\"" ++ escapeString x.1.1 ++ "\":" ++ stringify x.1.2)) ++ "\x7d"
  decreasing_by
  · have := List.sizeOf_lt_of_mem x.2
    simp_all
    omega
  · have := List.sizeOf_lt_of_mem x.2
    cases x with
    | mk v hv =>
      cases v with
      | mk k j =>
        simp_all
        omega

end Json

/-- Scene payload as handled by normalizeScenePayload: the three slots of the
editor document.  A missing (undefined) slot is modelled as JSON null. -/
structure SceneData where
  elements : Json
  appState : Json
  files : Json

instance : Inhabited SceneData := ⟨⟨Json.null, Json.null, Json.null⟩⟩

/-- Mirrors sanitizeAppState: strips the collaborator-only field from the UI
state (object rest-destructuring minus the collaborators key).  On an array
the JS object rest yields an index-keyed object whose own keys are numeric
strings, so removing the collaborators key keeps every entry; other values
only reach this function guarded by the object check, for which the result is
empty. -/
def sanitizeAppState : Json → Json
  | .obj fields => .obj (fields.filter (fun kv => kv.1 ≠ "collaborators"))
  | .arr items => .obj ((items.enum.map (fun p => (toString p.1, p.2))).filter
      (fun kv => kv.1 ≠ "collaborators"))
  | _ => .obj []

/-- Wrapper object produced by the host editor serialization: scene content
framed with format type, version and source tags. -/
def serializedScene (elements appState files : Json) : Json :=
  .obj [("type", .str "excalidraw"), ("version", .num 2),
        ("source", .str "canvex"), ("elements", elements),
        ("appState", appState), ("files", files)]

/-- Modelled from the spec: serializeAsJSON is the host canvas editor library
function (external to this repository) that canonically serializes the
(elements, appState, files) triple into a stable JSON string; per spec section
4.1 it is deterministic, and a thrown failure is modelled by the none result
(our canonical model always succeeds). -/
def serializeAsJSON (elements appState files : Json) : Option String :=
  some (Json.stringify (serializedScene elements appState files))

/-- Raw JSON image of a scene payload, used by the fallback fingerprint of the
catch branch. -/
def sceneDataToJson (s : SceneData) : Json :=
  .obj [("elements", s.elements), ("appState", s.appState), ("files", s.files)]

/-- Result of normalizeScenePayload: the normalized payload plus its
fingerprint string. -/
structure NormalizeResult where
  normalized : SceneData
  fingerprint : String

/-- Defaulted elements slot: the elements array when it is an array, an empty
array otherwise (covers a null scene and malformed slots). -/
def baseElementsOf (scene : Option SceneData) : Json :=
  match scene with
  | some s => if s.elements.isArr then s.elements else .arr []
  | none => .arr []

/-- Defaulted appState slot: sanitized when the value is a truthy object,
empty object otherwise. -/
def baseAppStateOf (scene : Option SceneData) : Json :=
  match scene with
  | some s => if s.appState.truthy && s.appState.isObjLike
              then sanitizeAppState s.appState else .obj []
  | none => .obj []

/-- Defaulted files slot: kept when the value is a truthy object, empty
object otherwise. -/
def baseFilesOf (scene : Option SceneData) : Json :=
  match scene with
  | some s => if s.files.truthy && s.files.isObjLike then s.files else .obj []
  | none => .obj []

/-- Mirrors normalizeScenePayload.  The defaulted base slots follow the
shape checks of the source; the try branch serializes, re-parses the
fingerprint (JSON.parse of a string just produced by stringify yields the
serialized object back, so the parse step is embedded as the serialized
wrapper itself) and extracts its slots; the catch branch falls back to a raw
serialization of the defaulted slots. -/
def normalizeScenePayload (scene : Option SceneData) : NormalizeResult :=
  let baseElements := baseElementsOf scene
  let baseAppState := baseAppStateOf scene
  let baseFiles := baseFilesOf scene
  match serializeAsJSON baseElements baseAppState baseFiles with
  | some fingerprint =>
      let parsed := serializedScene baseElements baseAppState baseFiles
      let normalized : SceneData :=
        { elements := if (parsed.get "elements").isArr then parsed.get "elements" else baseElements
          appState := if (parsed.get "appState").truthy && (parsed.get "appState").isObjLike
                      then parsed.get "appState" else baseAppState
          files := if (parsed.get "files").truthy && (parsed.get "files").isObjLike
                   then parsed.get "files" else baseFiles }
      ⟨normalized, fingerprint⟩
  | none =>
      let normalized : SceneData := ⟨baseElements, baseAppState, baseFiles⟩
      ⟨normalized, Json.stringify (sceneDataToJson normalized)⟩

/-- Fingerprint of a scene, as getSceneFingerprint. -/
def getSceneFingerprint (scene : SceneData) : String :=
  (normalizeScenePayload (some scene)).fingerprint

/-- Save indicator states of the save pipeline. -/
inductive SaveState where
  | idle
  | pending
  | saving
  | saved
  | error
  deriving Repr, DecidableEq

/-- Remote scene record as listed by the server (the fields selectScene
reads). -/
structure SceneRecord where
  id : Option String
  data : Option SceneData
  updated_at : Option String

/-- Local cache entry as returned by readLocalCache: a document snapshot and
the time it was written.  A missing or falsy field is none. -/
structure LocalCacheEntry where
  data : Option SceneData
  updatedAt : Option String

/-- Comparison of two Date.getTime results, where none models NaN (an invalid
date): every comparison involving NaN is false. -/
def jsGtTime : Option Int → Option Int → Bool
  | some a, some b => a > b
  | _, _ => false

/-- Millisecond timestamp of the remote record: parsed when present, zero
otherwise (`scene.updated_at ? getTime : 0`). -/
def serverUpdatedOf (parseDate : String → Option Int) (scene : SceneRecord) : Option Int :=
  match scene.updated_at with
  | some s => parseDate s
  | none => some 0

/-- Millisecond timestamp of the local cache entry: parsed when present, zero
otherwise (`local?.updatedAt ? getTime : 0`). -/
def localUpdatedOf (parseDate : String → Option Int) (localEntry : Option LocalCacheEntry) : Option Int :=
  match localEntry with
  | some lc =>
      match lc.updatedAt with
      | some s => parseDate s
      | none => some 0
  | none => some 0

/-- Empty JS object used for `scene.data || {}`: every slot undefined. -/
def emptySceneData : SceneData := ⟨Json.null, Json.null, Json.null⟩

/-- Poststate of a scene selection: which copy was adopted and how the save
pipeline state was reset. -/
structure SelectResult where
  adopted : SceneData
  pending : Option SceneData
  lastSaved : Option String
  saveState : SaveState
  scheduledFlush : Bool
  cacheWrite : Option SceneData

/-- Local-wins branch of selectScene. -/
def selectLocalBranch (d : SceneData) : SelectResult :=
  let localData := (normalizeScenePayload (some d)).normalized
  { adopted := localData, pending := some localData, lastSaved := none,
    saveState := .pending, scheduledFlush := true, cacheWrite := none }

/-- Remote-wins branch of selectScene. -/
def selectRemoteBranch (scene : SceneRecord) : SelectResult :=
  let serverData := (normalizeScenePayload (some (scene.data.getD emptySceneData))).normalized
  { adopted := serverData, pending := none,
    lastSaved := some (getSceneFingerprint serverData),
    saveState := .saved, scheduledFlush := false, cacheWrite := some serverData }

/-- Mirrors selectScene (the reconciliation core; the preceding flush of the
previous scene and the URL bookkeeping do not affect which copy is adopted).
Guards that return without selecting anything yield none.  Date parsing is a
parameter, none modelling an invalid date (NaN). -/
def selectScene (parseDate : String → Option Int) (activeSceneId : Option String)
    (scene : SceneRecord) (localEntry : Option LocalCacheEntry) : Option SelectResult :=
  match scene.id with
  | none => none
  | some sid =>
      if activeSceneId = some sid then none
      else
        let serverUpdated := serverUpdatedOf parseDate scene
        let localUpdated := localUpdatedOf parseDate localEntry
        match localEntry with
        | some lc =>
            if jsGtTime localUpdated serverUpdated then
              match lc.data with
              | some d => some (selectLocalBranch d)
              | none => some (selectRemoteBranch scene)
            else some (selectRemoteBranch scene)
        | none => some (selectRemoteBranch scene)

/-- Poststate of the elements-changed handler: the recorded pending document,
the synchronous cache write, the indicator, and whether a debounced flush was
scheduled. -/
structure ChangeOutcome where
  scene : SceneData
  cacheWrite : SceneData
  saveState : SaveState
  scheduledFlush : Bool

/-- Mirrors handleChange (the save-pipeline core of the change handler; video
overlay bookkeeping and theme sync do not touch the save pipeline).  The
pending document and cache are always updated; the flush is scheduled only
when the fingerprint differs from the last-saved one. -/
def handleChange (lastSaved : Option String) (elements appState files : Json) : ChangeOutcome :=
  let r := normalizeScenePayload (some ⟨elements, sanitizeAppState appState, files⟩)
  if some r.fingerprint = lastSaved then
    ⟨r.normalized, r.normalized, .saved, false⟩
  else
    ⟨r.normalized, r.normalized, .pending, true⟩

/-- Outcome of one iteration of the flushSave loop body, up to the decision
whether a network write is issued. -/
structure FlushIterationResult where
  networkWrites : Nat
  saveState : SaveState
  pending : Option SceneData
  cacheWrite : Option SceneData

/-- Mirrors one iteration of the flushSave do-while body (lines deciding the
write): an empty pending slot or a fingerprint equal to the last-saved one
issues no network write and reports saved. -/
def flushSaveIteration (pending : Option SceneData) (lastSaved : Option String) :
    FlushIterationResult :=
  match pending with
  | none => ⟨0, .saved, none, none⟩
  | some rawData =>
      let r := normalizeScenePayload (some rawData)
      if some r.fingerprint = lastSaved then
        ⟨0, .saved, some r.normalized, none⟩
      else
        ⟨1, .saving, some r.normalized, some r.normalized⟩

/-- Program counter of the task currently holding the flushSave single-flight
lock: idle (no holder) or suspended on the awaited network write.  All code
between suspension points runs atomically on the single JS execution
context. -/
inductive FlushPc where
  | idle
  | awaitWrite
  deriving Repr, DecidableEq

/-- Abstract state of the flushSave machinery.  dirty abstracts the test
"fingerprint of the pending document differs from lastSaved"; mutSince
records whether a mutation arrived while the current network write is in
flight; writing counts network writes in flight for this scene and writes the
total writes issued. -/
structure FlushCfg where
  pc : FlushPc
  rerun : Bool
  dirty : Bool
  mutSince : Bool
  writing : Nat
  writes : Nat
  deriving Repr, DecidableEq

/-- Atomic continuation after the awaited network write returns (lines after
the PATCH/POST await up to the next await or the release of the lock): the
loop condition consumes the rerun flag; a rerun with a dirty document issues
the next write, otherwise the lock is released.  d is the dirtiness after the
write settles. -/
def finishWrite (c : FlushCfg) (d : Bool) : FlushCfg :=
  if c.rerun && d then
    { pc := .awaitWrite, rerun := false, dirty := d, mutSince := false,
      writing := c.writing - 1 + 1, writes := c.writes + 1 }
  else
    { pc := .idle, rerun := false, dirty := d, mutSince := false,
      writing := c.writing - 1, writes := c.writes }

/-- Events of the flushSave machinery, each one atomic block of the source
between suspension points.

enterBusy: flushSave invoked while a flush holds the lock — only the rerun
flag is set.  enterClean: flushSave invoked with the lock free and nothing to
write — the whole call completes synchronously without a write.  enterWrite:
flushSave invoked with the lock free and a dirty document — the first loop
iteration issues the network write and suspends.  mutate: a document mutation
lands (d is the new dirtiness of the pending document relative to lastSaved).
writeOk: the in-flight write succeeds (lastSaved becomes the written
fingerprint, so the document stays dirty only if it was mutated during the
write).  writeErr: the write fails (lastSaved unchanged, so an unmutated
document stays dirty). -/
inductive FlushStep : FlushCfg → FlushCfg → Prop where
  | enterBusy (c : FlushCfg) (h : c.pc = .awaitWrite) :
      FlushStep c { c with rerun := true }
  | enterClean (c : FlushCfg) (h : c.pc = .idle) (hd : c.dirty = false) :
      FlushStep c { c with rerun := false }
  | enterWrite (c : FlushCfg) (h : c.pc = .idle) (hd : c.dirty = true) :
      FlushStep c { pc := .awaitWrite, rerun := false, dirty := true, mutSince := false,
                    writing := c.writing + 1, writes := c.writes + 1 }
  | mutate (c : FlushCfg) (d : Bool) :
      FlushStep c { c with dirty := d, mutSince := c.mutSince || decide (c.pc = .awaitWrite) }
  | writeOk (c : FlushCfg) (d : Bool) (h : c.pc = .awaitWrite) :
      FlushStep c (finishWrite c (c.mutSince && d))
  | writeErr (c : FlushCfg) (d : Bool) (h : c.pc = .awaitWrite) :
      FlushStep c (finishWrite c (!c.mutSince || d))

/-- Configurations reachable from boot: lock free, no rerun request, nothing
in flight, any initial dirtiness. -/
inductive FlushReach : FlushCfg → Prop where
  | init (d : Bool) : FlushReach ⟨.idle, false, d, false, 0, 0⟩
  | step {c c2 : FlushCfg} : FlushReach c → FlushStep c c2 → FlushReach c2

/-- Quiescent continuation: only the already in-flight write completing (and
the coalesced follow-up it triggers), no further flush invocations and no
further mutations. -/
inductive QuiesceStep : FlushCfg → FlushCfg → Prop where
  | writeOk (c : FlushCfg) (d : Bool) (h : c.pc = .awaitWrite) :
      QuiesceStep c (finishWrite c (c.mutSince && d))
  | writeErr (c : FlushCfg) (d : Bool) (h : c.pc = .awaitWrite) :
      QuiesceStep c (finishWrite c (!c.mutSince || d))

/-- Reflexive-transitive closure of quiescent continuation steps. -/
def QuiesceReach : FlushCfg → FlushCfg → Prop :=
  Relation.ReflTransGen QuiesceStep

/-- Element kinds the sync engine reads and writes. -/
inductive ElType where
  | rectangle
  | text
  | image
  deriving Repr, DecidableEq

/-- Canvas element, restricted to the fields the synchronization and
orchestration code reads or writes (identity, kind, tombstone flag, group
membership, the stringly-typed metadata bag, geometry, text content, backing
file and version counter).  Geometry is rational-valued. -/
structure Element where
  id : String
  typ : ElType
  isDeleted : Bool
  groupIds : List String
  customData : List (String × Json)
  x : ℚ
  y : ℚ
  width : ℚ
  height : ℚ
  text : String
  fileId : Option String
  version : Nat

/-- Metadata read `element.customData?.key`; an absent key is undefined,
modelled as JSON null. -/
def cdata (e : Element) (k : String) : Json :=
  (e.customData.lookup k).getD .null

/-- JavaScript String() conversion for the metadata values that occur in the
verified paths (strings and numbers; the remaining constructors follow the JS
conversion for completeness). -/
def jsString : Json → String
  | .str s => s
  | .num n => toString n
  | .bool b => if b then "true" else "false"
  | .null => "null"
  | .arr _ => ""
  | .obj _ => "[object Object]"

/-- Conversion pattern `String(value || fallback)` used by the duplicate
checks. -/
def jsStringOr (j : Json) (fallback : String) : String :=
  if j.truthy then jsString j else fallback

/-- JavaScript Number() conversion on metadata values, none modelling NaN.
The orchestration code stores numeric metadata (order indices) as numbers;
an absent value (undefined) converts to NaN. -/
def jsNumber : Json → Option Int
  | .num n => some n
  | _ => none

/-- JS String.prototype.startsWith, modelled over the character list (the
byte-position based library version is replaced by an equivalent computable
form). -/
def jsStartsWith (s p : String) : Bool := p.data.isPrefixOf s.data

/-- JS String.prototype.endsWith over the character list. -/
def jsEndsWith (s p : String) : Bool := p.data.isSuffixOf s.data

/-- Occurrence of a pattern inside a character list (some suffix starts with
the pattern). -/
def charListIncludes (p : List Char) : List Char → Bool
  | [] => p.isEmpty
  | c :: rest => p.isPrefixOf (c :: rest) || charListIncludes p rest

/-- JS String.prototype.includes over the character list. -/
def jsIncludes (s p : String) : Bool := charListIncludes p.data s.data

/-- Leading-whitespace strip over the character list. -/
def jsTrimLeft (s : String) : String := ⟨s.data.dropWhile Char.isWhitespace⟩

/-- JS String.prototype.trim over the character list. -/
def jsTrim (s : String) : String :=
  ⟨((s.data.dropWhile Char.isWhitespace).reverse.dropWhile Char.isWhitespace).reverse⟩

/-- Drop of the first n characters. -/
def jsDropChars (s : String) (n : Nat) : String := ⟨s.data.drop n⟩

/-- Math.round (round half towards positive infinity). -/
def jsRound (q : ℚ) : Int := Int.floor (q + 1/2)

/-- Falsy-coalescing `q || fallback` on a JS number that is not NaN: zero
falls back. -/
def jsOrQ (q fallback : ℚ) : ℚ := if q = 0 then fallback else q

/-- Mirrors createRectElement composed with createBaseElement, restricted to
the modelled fields (the call sites override geometry, group and metadata;
the id is the fresh random id). -/
def createRectElement (id : String) (x y width height : ℚ) (groupIds : List String)
    (customData : List (String × Json)) : Element :=
  { id := id, typ := .rectangle, isDeleted := false, groupIds := groupIds,
    customData := customData, x := x, y := y, width := width, height := height,
    text := "", fileId := none, version := 1 }

/-- Mirrors createTextElement composed with createBaseElement, restricted to
the modelled fields. -/
def createTextElement (id : String) (x y width height : ℚ) (text : String)
    (groupIds : List String) (customData : List (String × Json)) : Element :=
  { id := id, typ := .text, isDeleted := false, groupIds := groupIds,
    customData := customData, x := x, y := y, width := width, height := height,
    text := text, fileId := none, version := 1 }

/-- Mirrors createImageElement composed with createBaseElement, restricted to
the modelled fields. -/
def createImageElement (id : String) (x y width height : ℚ) (fileId : Option String)
    (customData : List (String × Json)) : Element :=
  { id := id, typ := .image, isDeleted := false, groupIds := [],
    customData := customData, x := x, y := y, width := width, height := height,
    text := "", fileId := fileId, version := 1 }

/-- Reserved placeholder handle: the group and the two element ids of the
rectangle+label pair. -/
structure ImagePlaceholder where
  sceneId : Option String
  groupId : String
  rectId : String
  textId : String

/-- Selection bounds passed to the edit-placeholder creator. -/
structure SelectionBounds where
  x : ℚ
  y : ℚ
  width : ℚ
  height : ℚ

/-- Metadata bag written on both legs of an image-edit placeholder. -/
def editPlaceholderMeta (index : Int) (createdAt : String) : List (String × Json) :=
  [("aiEditType", .str "image-placeholder"), ("aiEditStatus", .str "pending"),
   ("aiEditCreatedAt", .str createdAt), ("aiEditOrder", .num index)]

/-- Mirrors createEditImagePlaceholders: guarded by the active scene and the
api handle, it clamps the requested count to max(1, min(4, round(count))) and
appends that many fresh rectangle+label pairs to the right of the selection
bounds.  Fresh group and element ids are supplied by the id generators
(crypto.randomUUID in the source). -/
def createEditImagePlaceholders (activeSceneId : Option String) (apiReady : Bool)
    (existing : List Element) (mkGroup mkRectId mkTextId : Nat → String)
    (sceneId : Option String) (bounds : SelectionBounds) (label : String)
    (createdAt : String) (count : ℚ) :
    List ImagePlaceholder × List Element :=
  if sceneId ≠ activeSceneId then ([], existing)
  else if apiReady = false then ([], existing)
  else
    let width : ℚ := max 160 ((jsRound (jsOrQ bounds.width 320) : ℤ) : ℚ)
    let height : ℚ := max 120 ((jsRound (jsOrQ bounds.height 200) : ℤ) : ℚ)
    let gap : ℚ := 16
    let baseX : ℚ := bounds.x + jsOrQ bounds.width width + gap
    let baseY : ℚ := bounds.y
    let total : Nat := (max 1 (min 4 (jsRound count))).toNat
    let pairs := (List.range total).map (fun index =>
      let g := mkGroup index
      let x := baseX + (width + gap) * (index : ℚ)
      let rect := createRectElement (mkRectId index) x baseY width height [g]
        (editPlaceholderMeta index createdAt)
      let txt := createTextElement (mkTextId index) (x + 12) (baseY + 12)
        (width - 24) 24 label [g] (editPlaceholderMeta index createdAt)
      ((⟨sceneId, g, rect.id, txt.id⟩ : ImagePlaceholder), [rect, txt]))
    (pairs.map Prod.fst, existing ++ (pairs.map Prod.snd).flatten)

/-- Per-scene state of the video-job recovery machinery: the recovered flag,
how many times the job history has been fetched, the in-flight poll key set
and how many jobs have been submitted. -/
structure RecoverySt where
  recovered : Bool
  historyFetches : Nat
  pollInFlight : List String
  submissions : Nat
  deriving Repr, DecidableEq

/-- In-flight poll key for a (sceneId, jobId) pair. -/
def pollKeyOf (sceneId jobId : String) : String := sceneId ++ ":" ++ jobId

/-- Mirrors the pollVideoJob entry guard: a poll loop is started only when no
loop for the same (sceneId, jobId) key is in flight; a duplicate start is a
no-op. -/
def startVideoPoll (st : RecoverySt) (sceneId jobId : String) : RecoverySt :=
  if pollKeyOf sceneId jobId ∈ st.pollInFlight then st
  else { st with pollInFlight := pollKeyOf sceneId jobId :: st.pollInFlight }

/-- Mirrors recoverVideoJobsForScene as it acts on the recovery state: a
no-op when the per-scene recovered flag is set, otherwise it sets the flag,
fetches the job history exactly once, and for each QUEUED or RUNNING job that
has a matching (or adoptable orphan) placeholder resumes polling the same job
id.  Jobs are (id, status) pairs; placeholderFor abstracts the placeholder
lookup on the document.  No job is ever submitted here. -/
def recoverVideoJobsForScene (st : RecoverySt) (sceneId : String)
    (jobs : List (String × String)) (placeholderFor : String → Bool) : RecoverySt :=
  if st.recovered then st
  else
    let st1 := { st with recovered := true, historyFetches := st.historyFetches + 1 }
    jobs.foldl (fun acc job =>
      if (job.2 = "QUEUED" ∨ job.2 = "RUNNING") ∧ placeholderFor job.1 = true then
        startVideoPoll acc sceneId job.1
      else acc) st1

/-- Mirrors one tick of the periodic backlog sync effect: it clears the
per-scene recovered flag and invokes the recovery routine again. -/
def syncSceneBacklog (st : RecoverySt) (sceneId : String)
    (jobs : List (String × String)) (placeholderFor : String → Bool) : RecoverySt :=
  recoverVideoJobsForScene { st with recovered := false } sceneId jobs placeholderFor

/-- Tombstoning of one element as performed by every removal path: the
element is never physically removed, only marked deleted with a bumped
version. -/
def tombstoneElement (e : Element) : Element :=
  { e with isDeleted := true, version := e.version + 1 }

/-- Mirrors removeElementsById: every element whose id is listed is
tombstoned in place; the list keeps its length and order. -/
def removeElementsById (ids : List String) (es : List Element) : List Element :=
  es.map (fun e => if e.id ∈ ids then tombstoneElement e else e)

/-- JavaScript `a || b` on metadata values. -/
def jsOrJson (a b : Json) : Json := if a.truthy then a else b

/-- Lookup in a metadata bag literal (`meta?.key`). -/
def metaGet (m : List (String × Json)) (k : String) : Json :=
  (m.lookup k).getD .null

/-- Object spread `{...base, ...overrides}` restricted to lookup semantics:
override entries shadow base entries of the same key. -/
def mergeMeta (base overrides : List (String × Json)) : List (String × Json) :=
  overrides ++ base

/-- Strict equality between a metadata value and a string literal
(`data.key === value`). -/
def jsonEqStr (j : Json) (s : String) : Bool :=
  match j with
  | .str t => t = s
  | _ => false

/-- Test for an absolute http(s) url as used for thumbnail persistence. -/
def isHttpUrl (s : String) : Bool :=
  jsStartsWith s "http://" || jsStartsWith s "https://"

/-- Falsy-coalescing chain step on an optional JS number (absent or zero
falls back). -/
def jsOrOptQ (v : Option ℚ) (fallback : ℚ) : ℚ :=
  match v with
  | some q => if q = 0 then fallback else q
  | none => fallback

/-- Result payload of an image tool invocation (the fields read by the
insertion paths). -/
structure ToolResultData where
  url : Option String
  asset_id : Option String
  width : Option ℚ
  height : Option ℚ
  mime_type : Option String

/-- Mirrors findExistingVideoElement: the first live image element tagged
with the job id or the video url. -/
def findExistingVideoElement (es : List Element) (jobId : Option String)
    (url : Option String) : Option Element :=
  es.find? (fun e =>
    if e.isDeleted || e.typ ≠ ElType.image then false
    else
      (match jobId with
       | some j => j ≠ "" && jsonEqStr (cdata e "aiVideoJobId") j
       | none => false)
      || (match url with
          | some u => u ≠ "" && jsonEqStr (cdata e "aiVideoUrl") u
          | none => false))

/-- Mirrors the findDuplicateEditedImage helper of insertEditedImage: a live
image element already carries the asset identity, or the same
(job id, result ordinal). -/
def findDuplicateEditedImage (es : List Element) (assetId : Option String)
    (editJobId : Option String) (editOrder : Option Int) : Bool :=
  if es.isEmpty then false
  else
    (match assetId with
     | some aid =>
         es.any (fun e => !e.isDeleted && e.typ == ElType.image &&
           jsStringOr (jsOrJson (cdata e "aiEditAssetId") (cdata e "aiChatAssetId")) "" == aid)
     | none => false)
    || (match editJobId, editOrder with
        | some j, some o =>
            es.any (fun e => !e.isDeleted && e.typ == ElType.image &&
              jsStringOr (cdata e "aiEditJobId") "" == j
              && jsNumber (cdata e "aiEditOrder") == some o)
        | _, _ => false)

/-- Mirrors the removePlaceholderIfPresent helper of insertEditedImage: both
legs of the placeholder pair that are still live are tombstoned together; if
neither leg is live the document is left untouched. -/
def removePlaceholderIfPresent (placeholder : Option ImagePlaceholder)
    (es : List Element) : List Element × Bool :=
  match placeholder with
  | none => (es, false)
  | some p =>
      let changed := es.any (fun e =>
        (e.id == p.rectId || e.id == p.textId) && !e.isDeleted)
      if changed then
        (es.map (fun e =>
          if (e.id == p.rectId || e.id == p.textId) && !e.isDeleted
          then tombstoneElement e else e), true)
      else (es, false)

/-- Sizing and placement of the inserted final image (the geometry portion of
insertEditedImage): fit the natural result size into the reserved placeholder
region preserving its center, or place it beside the selection bounds.
Returns (x, y, width, height). -/
def insertEditedImageGeometry (bounds : SelectionBounds) (result : ToolResultData)
    (placeholderRect : Option Element) (dw dh : Option ℚ) : ℚ × ℚ × ℚ × ℚ :=
  let naturalWidth := jsOrOptQ result.width (jsOrOptQ dw (jsOrQ bounds.width 512))
  let naturalHeight := jsOrOptQ result.height (jsOrOptQ dh (jsOrQ bounds.height 512))
  let targetWidth : ℚ := match placeholderRect with
    | some r => max 120 ((jsRound (jsOrQ r.width naturalWidth) : ℤ) : ℚ)
    | none => jsOrQ bounds.width naturalWidth
  let targetHeight : ℚ := match placeholderRect with
    | some r => max 120 ((jsRound (jsOrQ r.height naturalHeight) : ℤ) : ℚ)
    | none => jsOrQ bounds.height naturalHeight
  let scale : ℚ :=
    if naturalWidth > 0 ∧ naturalHeight > 0
    then min (targetWidth / naturalWidth) (targetHeight / naturalHeight)
    else 1
  let width : ℚ := max 80 ((jsRound (naturalWidth * scale) : ℤ) : ℚ)
  let height : ℚ := max 80 ((jsRound (naturalHeight * scale) : ℤ) : ℚ)
  let x : ℚ := match placeholderRect with
    | some r => r.x + (targetWidth - width) / 2
    | none => bounds.x + jsOrQ bounds.width width + 16
  let y : ℚ := match placeholderRect with
    | some r => r.y + (targetHeight - height) / 2
    | none => bounds.y
  (x, y, width, height)

/-- Mirrors insertEditedImage.  The elements list read after the awaited
image load is passed separately (esAfterLoad; the verified sequential
executions pass the same list).  load is the outcome of loadImageDataUrl:
none models a thrown load, some carries the decoded dimensions.  Returns the
new element list and the JS boolean result. -/
def insertEditedImage (apiReady : Bool) (es esAfterLoad : List Element)
    (bounds : SelectionBounds) (result : ToolResultData)
    (placeholder : Option ImagePlaceholder)
    (load : Option (Option ℚ × Option ℚ)) (fileId imgId : String) :
    List Element × Bool :=
  if apiReady = false then (es, false)
  else match result.url with
  | none => (es, false)
  | some url =>
      if url = "" then (es, false)
      else
        let placeholderElement := match placeholder with
          | some p => es.find? (fun (e : Element) => e.id == p.rectId || e.id == p.textId)
          | none => none
        let editJobId := match placeholderElement with
          | some e => if (cdata e "aiEditJobId").truthy
                      then some (jsString (cdata e "aiEditJobId")) else none
          | none => none
        let editOrder := placeholderElement.bind (fun e => jsNumber (cdata e "aiEditOrder"))
        let editAssetId := result.asset_id
        if findDuplicateEditedImage es editAssetId editJobId editOrder then
          ((removePlaceholderIfPresent placeholder es).1, true)
        else match load with
        | none => (es, false)
        | some (dw, dh) =>
            let existing2 := esAfterLoad
            if findDuplicateEditedImage existing2 editAssetId editJobId editOrder then
              ((removePlaceholderIfPresent placeholder existing2).1, true)
            else
              let placeholderRect := match placeholder with
                | some p => existing2.find? (fun (e : Element) => e.id == p.rectId && !e.isDeleted)
                | none => none
              let resolvedEditJobId : Option String := match placeholderRect with
                | some r => if (cdata r "aiEditJobId").truthy
                            then some (jsString (cdata r "aiEditJobId")) else editJobId
                | none => editJobId
              let resolvedEditOrder : Option Int := match placeholderRect with
                | some r => match jsNumber (cdata r "aiEditOrder") with
                            | some o => some o
                            | none => editOrder
                | none => editOrder
              let geo := insertEditedImageGeometry bounds result placeholderRect dw dh
              let imageElement := createImageElement imgId geo.1 geo.2.1
                geo.2.2.1 geo.2.2.2 (some fileId)
                ([("aiEditSourceId", .str "selection"),
                  ("aiEditAssetId", match result.asset_id with
                                    | some a => .str a
                                    | none => .null),
                  ("aiEditImageUrl", .str url)]
                 ++ (match resolvedEditJobId with
                     | some j => [("aiEditJobId", Json.str j)]
                     | none => [])
                 ++ (match resolvedEditOrder with
                     | some o => [("aiEditOrder", Json.num o)]
                     | none => []))
              let mergedElements := match placeholder with
                | some p => existing2.map (fun (e : Element) =>
                    if e.id == p.rectId || e.id == p.textId
                    then tombstoneElement e else e)
                | none => existing2
              (mergedElements ++ [imageElement], true)

/-- Mirrors createPinnedImage.  Returns the element list and the JS return
value (none models the undefined early returns).  The duplicate checks by
(job id, result ordinal) and by asset identity return true without touching
the document; the caller is responsible for retiring the placeholder. -/
def createPinnedImage (activeSceneId : Option String) (apiReady : Bool)
    (es : List Element) (pinOrigin : Option (ℚ × ℚ)) (scrollX scrollY : ℚ)
    (fileId imgId createdAt : String)
    (sceneId : Option String) (tool : ToolResultData)
    (placeholder : Option ImagePlaceholder) (meta : List (String × Json))
    (load : Option (Option ℚ × Option ℚ)) : List Element × Option Bool :=
  if sceneId ≠ activeSceneId then (es, none)
  else if apiReady = false then (es, none)
  else match tool.url with
  | none => (es, none)
  | some url =>
      if url = "" then (es, none)
      else
        let metaJobId := if (metaGet meta "aiEditJobId").truthy
                         then some (jsString (metaGet meta "aiEditJobId")) else none
        let metaOrder := jsNumber (metaGet meta "aiEditOrder")
        let metaAssetId := jsOrJson (metaGet meta "aiEditAssetId")
          (match tool.asset_id with
           | some a => .str a
           | none => .null)
        let duplicatedByJob := match metaJobId with
          | some j =>
              es.any (fun e =>
                !e.isDeleted && e.typ == ElType.image
                && jsStringOr (cdata e "aiEditJobId") "" == j
                && (match metaOrder with
                    | some o => jsNumber (cdata e "aiEditOrder") == some o
                    | none => true))
          | none => false
        if duplicatedByJob then (es, some true)
        else
          let duplicatedByAsset :=
            metaAssetId.truthy &&
              es.any (fun e =>
                !e.isDeleted && e.typ == ElType.image
                && jsStringOr (jsOrJson (cdata e "aiEditAssetId") (cdata e "aiChatAssetId")) ""
                    == jsString metaAssetId)
          if duplicatedByAsset then (es, some true)
          else match load with
          | none => (es, some false)
          | some (dw, dh) =>
              let naturalWidth := jsOrOptQ tool.width (jsOrOptQ dw 512)
              let naturalHeight := jsOrOptQ tool.height (jsOrOptQ dh 512)
              let placeholderRect := match placeholder with
                | some p => es.find? (fun (e : Element) => e.id == p.rectId && !e.isDeleted)
                | none => none
              let geometry : ℚ × ℚ × ℚ × ℚ := match placeholderRect with
                | some r =>
                    let targetWidth : ℚ := max 120 ((jsRound (jsOrQ r.width 400) : ℤ) : ℚ)
                    let targetHeight : ℚ := max 120 ((jsRound (jsOrQ r.height 400) : ℤ) : ℚ)
                    let scale : ℚ :=
                      if naturalWidth > 0 ∧ naturalHeight > 0
                      then min (targetWidth / naturalWidth) (targetHeight / naturalHeight)
                      else 1
                    let w : ℚ := max 120 ((jsRound (naturalWidth * scale) : ℤ) : ℚ)
                    let h : ℚ := max 120 ((jsRound (naturalHeight * scale) : ℤ) : ℚ)
                    (r.x + (targetWidth - w) / 2, r.y + (targetHeight - h) / 2, w, h)
                | none =>
                    let pinnedItems := es.filter (fun e =>
                      jsStartsWith (jsStringOr (cdata e "aiChatType") "") "note-" && !e.isDeleted)
                    let origin := pinOrigin.getD (-scrollX + 32, -scrollY + 32)
                    let stackedHeight := pinnedItems.foldl (fun t e => t + jsOrQ e.height 0 + 16) 0
                    let scale : ℚ := if naturalWidth > 0 then min 1 (400 / naturalWidth) else 1
                    let w : ℚ := max 120 ((jsRound (naturalWidth * scale) : ℤ) : ℚ)
                    let h : ℚ := max 120 ((jsRound (naturalHeight * scale) : ℤ) : ℚ)
                    (origin.1, origin.2 + stackedHeight, w, h)
              let imageElement := createImageElement imgId geometry.1 geometry.2.1
                geometry.2.2.1 geometry.2.2.2 (some fileId)
                (mergeMeta
                  [("aiChatType", .str "note-image"),
                   ("aiChatCreatedAt", .str createdAt),
                   ("aiChatImageUrl", .str url),
                   ("aiChatAssetId", match tool.asset_id with
                                     | some a => .str a
                                     | none => .null)]
                  meta)
              (es ++ [imageElement], some true)

/-- Mirrors createPinnedVideo.  load is the outcome of the poster image load
(both attempts); none models total failure.  Returns the element list and the
JS boolean result. -/
def createPinnedVideo (activeSceneId : Option String) (apiReady : Bool)
    (es : List Element) (pinOrigin : Option (ℚ × ℚ)) (scrollX scrollY : ℚ)
    (fileId elemId createdAt : String)
    (sceneId : Option String) (videoUrl : String) (thumbnailUrl : Option String)
    (placeholder : Option ImagePlaceholder) (videoJobId : Option String)
    (load : Option (Option ℚ × Option ℚ)) : List Element × Bool :=
  if sceneId ≠ activeSceneId then (es, false)
  else if apiReady = false then (es, false)
  else if videoUrl = "" then (es, false)
  else match load with
  | none => (es, false)
  | some (dw, dh) =>
      let shouldPersistThumbnail := match thumbnailUrl with
        | some t => t ≠ "" && isHttpUrl t
        | none => false
      let naturalWidth := jsOrOptQ dw 640
      let naturalHeight := jsOrOptQ dh 360
      let placeholderRect := match placeholder with
        | some p => es.find? (fun (e : Element) => e.id == p.rectId && !e.isDeleted)
        | none => none
      let geometry : ℚ × ℚ × ℚ × ℚ := match placeholderRect with
        | some r =>
            let targetWidth : ℚ := max 160 ((jsRound (jsOrQ r.width naturalWidth) : ℤ) : ℚ)
            let scale : ℚ := if naturalWidth > 0 then targetWidth / naturalWidth else 1
            let w : ℚ := max 160 ((jsRound (naturalWidth * scale) : ℤ) : ℚ)
            let h : ℚ := max 90 ((jsRound (naturalHeight * scale) : ℤ) : ℚ)
            (jsOrQ r.x 0, jsOrQ r.y 0, w, h)
        | none =>
            let pinnedItems := es.filter (fun e =>
              jsStartsWith (jsStringOr (cdata e "aiChatType") "") "note-" && !e.isDeleted)
            let origin := pinOrigin.getD (-scrollX + 32, -scrollY + 32)
            let stackedHeight := pinnedItems.foldl (fun t e => t + jsOrQ e.height 0 + 16) 0
            let scale : ℚ := if naturalWidth > 0 then min 1 (400 / naturalWidth) else 1
            let w : ℚ := max 160 ((jsRound (naturalWidth * scale) : ℤ) : ℚ)
            let h : ℚ := max 90 ((jsRound (naturalHeight * scale) : ℤ) : ℚ)
            (origin.1, origin.2 + stackedHeight, w, h)
      let imageElement := createImageElement elemId geometry.1 geometry.2.1
        geometry.2.2.1 geometry.2.2.2 (some fileId)
        [("aiChatType", .str "note-video"),
         ("aiChatCreatedAt", .str createdAt),
         ("aiVideoUrl", .str videoUrl),
         ("aiVideoThumbnailUrl", if shouldPersistThumbnail
                                 then .str (thumbnailUrl.getD "") else .null),
         ("aiVideoJobId", match videoJobId with
                          | some j => .str j
                          | none => .null)]
      let es2 := es ++ [imageElement]
      let es3 := match placeholder with
        | some p => removeElementsById [p.rectId, p.textId] es2
        | none => es2
      (es3, true)

/-- Mirrors the SUCCEEDED branch of the pollVideoJob loop as it acts on the
document: the result is pinned (or recognised as already present) only when
the job's scene is still the active scene; otherwise the branch only settles
the tracked status and the document is left untouched. -/
def pollVideoSucceededStep (activeSceneId : Option String) (apiReady : Bool)
    (es : List Element) (pinOrigin : Option (ℚ × ℚ)) (scrollX scrollY : ℚ)
    (fileId elemId createdAt : String)
    (sceneId : String) (jobId : String) (resultUrl : Option String)
    (thumbnailUrl : Option String) (resolvedPlaceholder : Option ImagePlaceholder)
    (load : Option (Option ℚ × Option ℚ)) : List Element × Bool :=
  match resultUrl with
  | some url =>
      if url ≠ "" ∧ activeSceneId = some sceneId then
        match findExistingVideoElement es (some jobId) (some url) with
        | some _ =>
            ((match resolvedPlaceholder with
              | some p => removeElementsById [p.rectId, p.textId] es
              | none => es), false)
        | none =>
            createPinnedVideo activeSceneId apiReady es pinOrigin scrollX scrollY
              fileId elemId createdAt (some sceneId) url thumbnailUrl
              resolvedPlaceholder (some jobId) load
      else (es, false)
  | none => (es, false)

/-- Number of live final image elements carrying a given (job id, result
ordinal) pair. -/
def countFinalEdited (es : List Element) (j : String) (o : Int) : Nat :=
  (es.filter (fun e => !e.isDeleted && e.typ == ElType.image
    && jsStringOr (cdata e "aiEditJobId") "" == j
    && jsNumber (cdata e "aiEditOrder") == some o)).length

/-- Observable effects of stream processing on the chat log and the
document, recorded in order. -/
inductive ChatEvent where
  | toolResult (payload : Json)
  | imagePlaceholderCreated
  | videoPlaceholderCreated
  | chatAppended (content : String)
  | notePinned (content : String)
  | noteUpdated (content : String)

/-- Mutable state of one chat turn's stream processing (the closure variables
of sendMessage). -/
structure ChatSt where
  assistantContent : String
  suppressAssistantPin : Bool
  intentReceived : Bool
  appendedFinal : Bool
  hasNoteId : Bool
  streamError : Option String
  events : List ChatEvent

/-- Mirrors isImageSpecPayload, the heuristic suppressing the pinning of
machine-directed payload text.  JSON.parse is the abstract parse parameter
(none models a throw); substring tests are modelled through splitOn. -/
def isImageSpecPayload (parse : String → Option Json) (text : String) : Bool :=
  let trimmed := jsTrim text
  if ¬ jsStartsWith trimmed "\x7b" then false
  else
    let hasPrompt := jsIncludes trimmed "\"prompt\""
    let hasSize := jsIncludes trimmed "\"size\""
    if ¬ jsEndsWith trimmed "\x7d" then hasPrompt && hasSize
    else match parse trimmed with
    | none => hasPrompt && hasSize
    | some p =>
        match p with
        | .obj fields =>
            let keys := fields.map Prod.fst
            if keys.isEmpty then false
            else if keys.any (fun k => ¬ (k = "prompt" ∨ k = "size")) then false
            else keys.any (fun k => k = "prompt" ∨ k = "size")
        | _ => false

/-- Mirrors appendAssistantMessage: the final (or accumulated) assistant text
is appended to the chat log, mirrored into the single pinned note unless
suppressed, and the final flag is set. -/
def appendAssistantMessage (parse : String → Option Json) (st : ChatSt)
    (payload : Option Json) : ChatSt :=
  let content := match payload with
    | some p => jsStringOr (p.get "content") st.assistantContent
    | none => st.assistantContent
  let st1 := { st with events := st.events ++ [ChatEvent.chatAppended content] }
  let shouldSuppress := st1.suppressAssistantPin || isImageSpecPayload parse content
  let st2 :=
    if shouldSuppress then st1
    else if st1.hasNoteId then { st1 with events := st1.events ++ [ChatEvent.noteUpdated content] }
    else { st1 with hasNoteId := true, events := st1.events ++ [ChatEvent.notePinned content] }
  { st2 with appendedFinal := true }

/-- Mirrors the payload dispatch of processBuffer: tool results are routed to
the tool handler, the first intent creates a placeholder, deltas accumulate
and mirror into the pinned note unless the suppression heuristic fires, a
message payload appends the final assistant message, an error payload records
the stream error. -/
def dispatchPayload (parse : String → Option Json) (st : ChatSt) (payload : Json) : ChatSt :=
  let toolPayload := jsOrJson (payload.get "tool-result") payload
  let st1 :=
    if (toolPayload.get "tool").truthy && (toolPayload.get "result").truthy
    then { st with events := st.events ++ [ChatEvent.toolResult toolPayload] }
    else st
  let st2 :=
    if jsonEqStr (payload.get "intent") "image" then
      if ¬ st1.intentReceived
      then { st1 with events := st1.events ++ [ChatEvent.imagePlaceholderCreated],
                      intentReceived := true }
      else st1
    else st1
  let st3 :=
    if jsonEqStr (payload.get "intent") "video" then
      if ¬ st2.intentReceived
      then { st2 with events := st2.events ++ [ChatEvent.chatAppended "视频生成中…",
                        ChatEvent.videoPlaceholderCreated],
                      intentReceived := true }
      else st2
    else st2
  let st4 :=
    if (payload.get "delta").truthy then
      let content := st3.assistantContent ++ jsString (payload.get "delta")
      let sup := (st3.suppressAssistantPin || jsStartsWith (jsTrim content) "\x7b")
        || isImageSpecPayload parse content
      let base := { st3 with assistantContent := content, suppressAssistantPin := sup }
      if ¬ sup then
        if ¬ base.hasNoteId
        then { base with hasNoteId := true,
                         events := base.events ++ [ChatEvent.notePinned content] }
        else { base with events := base.events ++ [ChatEvent.noteUpdated content] }
      else base
    else st3
  let st5 :=
    if (payload.get "message").truthy
    then appendAssistantMessage parse st4 (some (payload.get "message"))
    else st4
  if (payload.get "error").truthy
  then { st5 with streamError := some (jsString (payload.get "error")) }
  else st5

/-- Prefix strip `raw.replace(/^data:\s*/, '')`. -/
def stripDataPre (raw : String) : String := jsTrimLeft (jsDropChars raw 5)

/-- Mirrors the frame loop of processBuffer over the sequence of complete
blank-line-separated blocks: non-data frames are ignored, a frame whose
payload fails to parse is logged and skipped and processing continues, and an
error payload ends the pass. -/
def processFrames (parse : String → Option Json) : ChatSt → List String → ChatSt
  | st, [] => st
  | st, raw :: rest =>
      if jsStartsWith raw "data:" then
        match parse (stripDataPre raw) with
        | none => processFrames parse st rest
        | some payload =>
            if (payload.get "error").truthy
            then dispatchPayload parse st payload
            else processFrames parse (dispatchPayload parse st payload) rest
      else processFrames parse st rest

/-- Observable outcome of the post-stream epilogue of sendMessage. -/
structure TurnOutcome where
  fallbackRequests : Nat
  appendedAssistant : List String
  success : Bool

/-- Mirrors the catch branch of sendMessage: exactly one plain (non-stream)
chat request is attempted; its message is appended as the assistant message
on success (fallbackResult none models a failed fallback request). -/
def chatFallbackCall (fallbackResult : Option String) : TurnOutcome :=
  match fallbackResult with
  | some content => { fallbackRequests := 1, appendedAssistant := [content], success := true }
  | none => { fallbackRequests := 1, appendedAssistant := [], success := false }

/-- Mirrors the epilogue of sendMessage after the stream is exhausted: a
recorded stream error throws, a turn with no final message and no
accumulated text throws (Empty assistant response), both reaching the
fallback; otherwise accumulated text not yet finalized is appended and the
turn succeeds without any fallback request. -/
def finishTurn (st : ChatSt) (fallbackResult : Option String) : TurnOutcome :=
  if st.streamError.isSome then chatFallbackCall fallbackResult
  else if ¬ st.appendedFinal ∧ jsTrim st.assistantContent = "" then
    chatFallbackCall fallbackResult
  else if ¬ st.appendedFinal ∧ jsTrim st.assistantContent ≠ "" then
    { fallbackRequests := 0, appendedAssistant := [st.assistantContent], success := true }
  else { fallbackRequests := 0, appendedAssistant := [], success := true }

/-- An element is one leg of a reserved placeholder: tagged as a chat image
or video placeholder, or as an image-edit placeholder. -/
def isPlaceholderElt (e : Element) : Bool :=
  jsonEqStr (cdata e "aiChatType") "note-image-placeholder"
  || jsonEqStr (cdata e "aiChatType") "note-video-placeholder"
  || jsonEqStr (cdata e "aiEditType") "image-placeholder"

/-- Placeholder legs carrying exactly the group id g, in document order. -/
def placeholderGroupElems (es : List Element) (g : String) : List Element :=
  es.filter (fun e => isPlaceholderElt e && e.groupIds == [g])

/-- r and t are the placeholder pair of group g. -/
def pairOf (es : List Element) (g : String) (r t : Element) : Prop :=
  placeholderGroupElems es g = [r, t]

/-- Placeholder pair invariant of a document: element ids are unique, every
placeholder leg has exactly one group id, and every group that owns
placeholder legs owns exactly one rectangle and one label text, tombstoned
together and carrying the same placeholder type tags. -/
def PairInv (es : List Element) : Prop :=
  (es.map Element.id).Nodup
  ∧ (∀ e ∈ es, isPlaceholderElt e = true → ∃ g, e.groupIds = [g])
  ∧ (∀ g, placeholderGroupElems es g = []
      ∨ ∃ r t, placeholderGroupElems es g = [r, t]
          ∧ r.typ = ElType.rectangle ∧ t.typ = ElType.text
          ∧ r.isDeleted = t.isDeleted
          ∧ cdata r "aiChatType" = cdata t "aiChatType"
          ∧ cdata r "aiEditType" = cdata t "aiEditType")

/-- The placeholder handle denotes an actual pair in the document (every call
site obtains its handle from the creator or the pair-shaped finders). -/
def ValidPair (es : List Element) (p : ImagePlaceholder) : Prop :=
  ∃ r t, placeholderGroupElems es p.groupId = [r, t]
    ∧ r.id = p.rectId ∧ t.id = p.textId

/-- Conditional tombstoning of the live legs of a pair, the map of
removePlaceholderIfPresent. -/
def tombstonePairLive (p : ImagePlaceholder) (es : List Element) : List Element :=
  es.map (fun e =>
    if (e.id == p.rectId || e.id == p.textId) && !e.isDeleted
    then tombstoneElement e else e)

/-- Unconditional tombstoning of both legs of a pair, the merge map of
insertEditedImage. -/
def tombstonePairAll (p : ImagePlaceholder) (es : List Element) : List Element :=
  es.map (fun (e : Element) =>
    if e.id == p.rectId || e.id == p.textId
    then tombstoneElement e else e)

/-- Mirrors the rectangle+label pair created by createImagePlaceholder: both
legs share the fresh group id and the same chat-placeholder tags (kindVideo
selects the video type, options.jobId tags both legs). -/
def mkChatPlaceholderPair (rid tid g : String) (kindVideo : Bool)
    (jobId : Option String) (label createdAt : String) (x y : ℚ) : Element × Element :=
  let placeholderType := if kindVideo then "note-video-placeholder" else "note-image-placeholder"
  let meta := [("aiChatType", Json.str placeholderType),
               ("aiChatStatus", Json.str "pending"),
               ("aiChatCreatedAt", Json.str createdAt)]
              ++ (match jobId with
                  | some j => [("aiVideoJobId", Json.str j)]
                  | none => [])
  (createRectElement rid x y 400 400 [g] meta,
   createTextElement tid (x + 12) (y + 12) (400 - 24) 24 label [g] meta)

/-- Mirrors updatePlaceholderText as it acts on the element list: the live
label leg is rewritten with re-wrapped content (the wrapped text and measured
height come from the text-layout routine, taken as parameters); a missing
or tombstoned label leaves the document untouched. -/
def updatePlaceholderText (es : List Element) (p : ImagePlaceholder)
    (wrappedText : String) (textHeight : ℚ) : List Element :=
  match es.find? (fun (e : Element) => e.id == p.textId && !e.isDeleted) with
  | none => es
  | some target =>
      es.map (fun e =>
        if e.id == p.textId
        then { target with text := wrappedText, height := textHeight, version := target.version + 1 }
        else e)

/-- Mirrors updatePlaceholderMeta: both live legs of the pair receive the
same metadata merge; tombstoned elements are left untouched. -/
def updatePlaceholderMeta (es : List Element) (p : ImagePlaceholder)
    (meta : List (String × Json)) : List Element :=
  es.map (fun e =>
    if e.isDeleted then e
    else if e.id == p.rectId || e.id == p.textId
    then { e with customData := mergeMeta e.customData meta, version := e.version + 1 }
    else e)

/-- Operations of the placeholder manager on the document element list, each
one updateScene call of the source.  Fresh ids and group ids (randomUUID)
appear as freshness hypotheses.  A call of createEditImagePlaceholders
appends its pairs one `appendEditPlaceholderPair` step at a time. -/
inductive DocStep : List Element → List Element → Prop where
  | createChatPlaceholder (es : List Element) (rid tid g : String) (kindVideo : Bool)
      (jobId : Option String) (label createdAt : String) (x y : ℚ)
      (hg : ∀ e ∈ es, g ∉ e.groupIds)
      (hr : rid ∉ es.map Element.id) (ht : tid ∉ es.map Element.id) (hne : rid ≠ tid) :
      DocStep es (es ++ [(mkChatPlaceholderPair rid tid g kindVideo jobId label createdAt x y).1,
                         (mkChatPlaceholderPair rid tid g kindVideo jobId label createdAt x y).2])
  | appendEditPlaceholderPair (es : List Element) (rid tid g : String) (index : Int)
      (label createdAt : String) (x y w h : ℚ)
      (hg : ∀ e ∈ es, g ∉ e.groupIds)
      (hr : rid ∉ es.map Element.id) (ht : tid ∉ es.map Element.id) (hne : rid ≠ tid) :
      DocStep es (es ++ [createRectElement rid x y w h [g] (editPlaceholderMeta index createdAt),
                         createTextElement tid (x + 12) (y + 12) (w - 24) 24 label [g]
                           (editPlaceholderMeta index createdAt)])
  | pinElement (es : List Element) (e : Element)
      (hp : isPlaceholderElt e = false) (hfresh : e.id ∉ es.map Element.id) :
      DocStep es (es ++ [e])
  | removePair (es : List Element) (p : ImagePlaceholder) (hv : ValidPair es p) :
      DocStep es (removeElementsById [p.rectId, p.textId] es)
  | resolvePair (es : List Element) (p : ImagePlaceholder) (bounds : SelectionBounds)
      (result : ToolResultData) (load : Option (Option ℚ × Option ℚ)) (fileId imgId : String)
      (hv : ValidPair es p) (hfresh : imgId ∉ es.map Element.id) :
      DocStep es (insertEditedImage true es es bounds result (some p) load fileId imgId).1
  | updateTextStep (es : List Element) (p : ImagePlaceholder) (w : String) (h : ℚ) :
      DocStep es (updatePlaceholderText es p w h)
  | updateMetaStep (es : List Element) (p : ImagePlaceholder) (meta : List (String × Json))
      (hv : ValidPair es p)
      (hmeta : ∀ e ∈ es, isPlaceholderElt
          { e with customData := mergeMeta e.customData meta, version := e.version + 1 }
        = isPlaceholderElt e) :
      DocStep es (updatePlaceholderMeta es p meta)

/-- Documents reachable from the empty document through placeholder-manager
operations. -/
inductive DocReach : List Element → Prop where
  | init : DocReach []
  | step {es es2 : List Element} : DocReach es → DocStep es es2 → DocReach es2

-- ### Theorems

theorem filter_self_idem {α : Type} (p : α → Bool) (l : List α) :
    (l.filter p).filter p = l.filter p := by
  induction l with
  | nil => rfl
  | cons a t ih =>
      by_cases h : p a <;> simp [List.filter_cons, h, ih]

theorem sanitizeAppState_idem (j : Json) :
    sanitizeAppState (sanitizeAppState j) = sanitizeAppState j := by
  cases j <;> simp [sanitizeAppState, filter_self_idem]

theorem sanitizeAppState_shape (j : Json) :
    (sanitizeAppState j).truthy = true ∧ (sanitizeAppState j).isObjLike = true := by
  cases j <;> simp [sanitizeAppState, Json.truthy, Json.isObjLike]

theorem baseElementsOf_isArr (x : Option SceneData) :
    (baseElementsOf x).isArr = true := by
  cases x with
  | none => rfl
  | some s =>
      simp only [baseElementsOf]
      split
      · rename_i h
        exact h
      · rfl

theorem baseAppStateOf_shape (x : Option SceneData) :
    (baseAppStateOf x).truthy = true ∧ (baseAppStateOf x).isObjLike = true := by
  cases x with
  | none => exact ⟨rfl, rfl⟩
  | some s =>
      simp only [baseAppStateOf]
      split
      · exact sanitizeAppState_shape s.appState
      · exact ⟨rfl, rfl⟩

theorem baseAppStateOf_sanitize_fixed (x : Option SceneData) :
    sanitizeAppState (baseAppStateOf x) = baseAppStateOf x := by
  cases x with
  | none => rfl
  | some s =>
      simp only [baseAppStateOf]
      split
      · exact sanitizeAppState_idem s.appState
      · rfl

theorem baseFilesOf_shape (x : Option SceneData) :
    (baseFilesOf x).truthy = true ∧ (baseFilesOf x).isObjLike = true := by
  cases x with
  | none => exact ⟨rfl, rfl⟩
  | some s =>
      simp only [baseFilesOf]
      split
      · rename_i h
        rw [Bool.and_eq_true] at h
        exact h
      · exact ⟨rfl, rfl⟩

theorem serializedScene_get_elements (e a f : Json) :
    (serializedScene e a f).get "elements" = e := by
  simp [serializedScene, Json.get, List.lookup]

theorem serializedScene_get_appState (e a f : Json) :
    (serializedScene e a f).get "appState" = a := by
  simp [serializedScene, Json.get, List.lookup]

theorem serializedScene_get_files (e a f : Json) :
    (serializedScene e a f).get "files" = f := by
  simp [serializedScene, Json.get, List.lookup]

theorem normalizeScenePayload_eq (x : Option SceneData) :
    normalizeScenePayload x =
      ⟨⟨baseElementsOf x, baseAppStateOf x, baseFilesOf x⟩,
        Json.stringify (serializedScene (baseElementsOf x) (baseAppStateOf x) (baseFilesOf x))⟩ := by
  have hE := baseElementsOf_isArr x
  have hA := baseAppStateOf_shape x
  have hF := baseFilesOf_shape x
  simp only [normalizeScenePayload, serializeAsJSON,
    serializedScene_get_elements, serializedScene_get_appState, serializedScene_get_files,
    hE, hA.1, hA.2, hF.1, hF.2, Bool.and_self, if_true]

theorem baseElementsOf_some_mk (e a f : Json) :
    baseElementsOf (some ⟨e, a, f⟩) = if e.isArr = true then e else Json.arr [] := rfl

theorem baseAppStateOf_some_mk (e a f : Json) :
    baseAppStateOf (some ⟨e, a, f⟩) =
      if (a.truthy && a.isObjLike) = true then sanitizeAppState a else Json.obj [] := rfl

theorem baseFilesOf_some_mk (e a f : Json) :
    baseFilesOf (some ⟨e, a, f⟩) =
      if (f.truthy && f.isObjLike) = true then f else Json.obj [] := rfl

theorem normalizeScenePayload_idem (x : Option SceneData) :
    normalizeScenePayload (some (normalizeScenePayload x).normalized) =
      normalizeScenePayload x := by
  have hn : (normalizeScenePayload x).normalized =
      ⟨baseElementsOf x, baseAppStateOf x, baseFilesOf x⟩ := by
    rw [normalizeScenePayload_eq x]
  have hACond : ((baseAppStateOf x).truthy && (baseAppStateOf x).isObjLike) = true := by
    rw [Bool.and_eq_true]
    exact baseAppStateOf_shape x
  have hFCond : ((baseFilesOf x).truthy && (baseFilesOf x).isObjLike) = true := by
    rw [Bool.and_eq_true]
    exact baseFilesOf_shape x
  have hBE : baseElementsOf (some (normalizeScenePayload x).normalized)
      = baseElementsOf x := by
    rw [hn, baseElementsOf_some_mk, if_pos (baseElementsOf_isArr x)]
  have hBA : baseAppStateOf (some (normalizeScenePayload x).normalized)
      = baseAppStateOf x := by
    rw [hn, baseAppStateOf_some_mk, if_pos hACond]
    exact baseAppStateOf_sanitize_fixed x
  have hBF : baseFilesOf (some (normalizeScenePayload x).normalized)
      = baseFilesOf x := by
    rw [hn, baseFilesOf_some_mk, if_pos hFCond]
  conv_lhs => rw [normalizeScenePayload_eq (some (normalizeScenePayload x).normalized)]
  conv_rhs => rw [normalizeScenePayload_eq x]
  rw [hBE, hBA, hBF]

/-- C4: canonicalization is idempotent — normalizing the already-normalized
scene data yields the same fingerprint (indeed the same whole result) — and
total: for every input, malformed slots included, the function produces a
result whose normalized slots are well-shaped (an array of elements and
truthy object-like appState and files), never an error. -/
theorem C4_canonicalization_idempotent_and_total (x : Option SceneData) :
    (normalizeScenePayload (some (normalizeScenePayload x).normalized)).fingerprint
        = (normalizeScenePayload x).fingerprint
    ∧ normalizeScenePayload (some (normalizeScenePayload x).normalized)
        = normalizeScenePayload x
    ∧ (normalizeScenePayload x).normalized.elements.isArr = true
    ∧ (normalizeScenePayload x).normalized.appState.isObjLike = true
    ∧ (normalizeScenePayload x).normalized.files.isObjLike = true := by
  refine ⟨by rw [normalizeScenePayload_idem x], normalizeScenePayload_idem x, ?_, ?_, ?_⟩
  · rw [normalizeScenePayload_eq x]
    exact baseElementsOf_isArr x
  · rw [normalizeScenePayload_eq x]
    exact (baseAppStateOf_shape x).2
  · rw [normalizeScenePayload_eq x]
    exact (baseFilesOf_shape x).2

/-- C3: on scene selection, when the local cache entry has data and a
strictly newer timestamp than the remote record, the normalized local copy is
adopted, SaveState becomes pending and a flush is scheduled; in every other
case the remote copy is adopted, SaveState becomes saved and the local cache
is overwritten with the remote data. -/
theorem C3_selectScene_local_wins (parseDate : String → Option Int)
    (activeSceneId : Option String) (scene : SceneRecord)
    (localEntry : Option LocalCacheEntry) (sid : String)
    (hid : scene.id = some sid) (hactive : activeSceneId ≠ some sid) :
    (∀ lc d, localEntry = some lc → lc.data = some d →
        jsGtTime (localUpdatedOf parseDate localEntry) (serverUpdatedOf parseDate scene) = true →
        selectScene parseDate activeSceneId scene localEntry = some
          { adopted := (normalizeScenePayload (some d)).normalized,
            pending := some (normalizeScenePayload (some d)).normalized,
            lastSaved := none,
            saveState := SaveState.pending,
            scheduledFlush := true,
            cacheWrite := none })
    ∧ ((∀ lc d, localEntry = some lc → lc.data = some d →
          jsGtTime (localUpdatedOf parseDate localEntry) (serverUpdatedOf parseDate scene) = false) →
        selectScene parseDate activeSceneId scene localEntry = some
          { adopted := (normalizeScenePayload (some (scene.data.getD emptySceneData))).normalized,
            pending := none,
            lastSaved := some (getSceneFingerprint
              (normalizeScenePayload (some (scene.data.getD emptySceneData))).normalized),
            saveState := SaveState.saved,
            scheduledFlush := false,
            cacheWrite := some
              (normalizeScenePayload (some (scene.data.getD emptySceneData))).normalized }) := by
  constructor
  · intro lc d hl hd hgt
    subst hl
    simp only [selectScene, hid, if_neg hactive, hgt, hd, if_true, selectLocalBranch]
  · intro hfail
    cases hl : localEntry with
    | none =>
        simp [selectScene, hid, if_neg hactive, selectRemoteBranch]
    | some lc =>
        cases hd : lc.data with
        | none =>
            cases hgt : jsGtTime (localUpdatedOf parseDate (some lc))
                (serverUpdatedOf parseDate scene) with
            | false => simp [selectScene, hid, if_neg hactive, hgt, hd, selectRemoteBranch]
            | true => simp [selectScene, hid, if_neg hactive, hgt, hd, selectRemoteBranch]
        | some d =>
            have hgt := hfail lc d hl hd
            rw [hl] at hgt
            simp [selectScene, hid, if_neg hactive, hgt, hd, selectRemoteBranch]

/-- Witness for C3 at a concrete input: local timestamp 2 beats remote
timestamp 1, so the local copy is adopted pending with a scheduled flush. -/
theorem C3_selectScene_local_wins_witness :
    selectScene (fun s => if s = "T2" then some 2 else some 1) none
      ⟨some "s1", some ⟨Json.arr [], Json.obj [], Json.obj []⟩, some "T1"⟩
      (some ⟨some ⟨Json.arr [], Json.obj [], Json.obj []⟩, some "T2"⟩) = some
      { adopted := (normalizeScenePayload (some ⟨Json.arr [], Json.obj [], Json.obj []⟩)).normalized,
        pending := some (normalizeScenePayload (some ⟨Json.arr [], Json.obj [], Json.obj []⟩)).normalized,
        lastSaved := none,
        saveState := SaveState.pending,
        scheduledFlush := true,
        cacheWrite := none } :=
  (C3_selectScene_local_wins (fun s => if s = "T2" then some 2 else some 1) none
      ⟨some "s1", some ⟨Json.arr [], Json.obj [], Json.obj []⟩, some "T1"⟩
      (some ⟨some ⟨Json.arr [], Json.obj [], Json.obj []⟩, some "T2"⟩) "s1"
      rfl (by decide)).1
    ⟨some ⟨Json.arr [], Json.obj [], Json.obj []⟩, some "T2"⟩
    ⟨Json.arr [], Json.obj [], Json.obj []⟩ rfl rfl (by decide)

/-- C5: a mutation whose fingerprint equals the last-saved fingerprint never
triggers a network write — the change handler reports saved without
scheduling a flush, and a flushSave iteration with an equal (or empty)
pending fingerprint skips the network write. -/
theorem C5_noop_save_elimination (lastSaved : Option String)
    (elements appState files : Json) (raw : SceneData)
    (hchange : some (normalizeScenePayload
        (some ⟨elements, sanitizeAppState appState, files⟩)).fingerprint = lastSaved)
    (hflush : some (normalizeScenePayload (some raw)).fingerprint = lastSaved) :
    (handleChange lastSaved elements appState files).scheduledFlush = false
    ∧ (handleChange lastSaved elements appState files).saveState = SaveState.saved
    ∧ (flushSaveIteration (some raw) lastSaved).networkWrites = 0
    ∧ (flushSaveIteration (some raw) lastSaved).saveState = SaveState.saved
    ∧ (flushSaveIteration none lastSaved).networkWrites = 0 := by
  refine ⟨?_, ?_, ?_, ?_, rfl⟩ <;>
    simp [handleChange, flushSaveIteration, hchange, hflush]

/-- Witness for C5 at a concrete input: recording the same trivial scene
again schedules no flush and a flush iteration issues no write. -/
theorem C5_noop_save_elimination_witness :
    (handleChange (some (normalizeScenePayload
        (some ⟨Json.arr [], sanitizeAppState (Json.obj []), Json.obj []⟩)).fingerprint)
        (Json.arr []) (Json.obj []) (Json.obj [])).scheduledFlush = false
    ∧ (flushSaveIteration (some ⟨Json.arr [], sanitizeAppState (Json.obj []), Json.obj []⟩)
        (some (normalizeScenePayload
          (some ⟨Json.arr [], sanitizeAppState (Json.obj []), Json.obj []⟩)).fingerprint)).networkWrites = 0 := by
  have h := C5_noop_save_elimination
    (some (normalizeScenePayload
      (some ⟨Json.arr [], sanitizeAppState (Json.obj []), Json.obj []⟩)).fingerprint)
    (Json.arr []) (Json.obj []) (Json.obj [])
    ⟨Json.arr [], sanitizeAppState (Json.obj []), Json.obj []⟩ rfl rfl
  exact ⟨h.1, h.2.2.1⟩

theorem flushReach_writing_eq (c : FlushCfg) (h : FlushReach c) :
    c.writing = (if c.pc = FlushPc.awaitWrite then 1 else 0) := by
  induction h with
  | init d => simp
  | step hr hs ih =>
      rename_i b b2
      cases hs with
      | enterBusy h => simpa using ih
      | enterClean h hd => simpa using ih
      | enterWrite h hd =>
          rw [h] at ih
          simp at ih
          simp [ih]
      | mutate d => simpa using ih
      | writeOk d h =>
          rw [h] at ih
          simp at ih
          unfold finishWrite
          by_cases hb : (b.rerun && (b.mutSince && d)) = true <;> simp [hb, ih]
      | writeErr d h =>
          rw [h] at ih
          simp at ih
          unfold finishWrite
          by_cases hb : (b.rerun && (!b.mutSince || d)) = true <;> simp [hb, ih]

theorem quiesce_writes_bound (c c2 : FlushCfg) (h : QuiesceReach c c2) :
    c2.writes + (if c2.pc = FlushPc.awaitWrite ∧ c2.rerun = true then 1 else 0)
      ≤ c.writes + 1 := by
  induction h with
  | refl =>
      by_cases hb : c.pc = FlushPc.awaitWrite ∧ c.rerun = true <;> simp [hb]
  | tail hr hs ih =>
      rename_i b b2
      cases hs with
      | writeOk d h =>
          unfold finishWrite
          by_cases hb : (b.rerun && (b.mutSince && d)) = true
          · have hrerun : b.rerun = true := by
              rw [Bool.and_eq_true] at hb
              exact hb.1
            have hble : b.writes + 1 ≤ c.writes + 1 := by
              have heq : b.writes + 1
                  = b.writes + (if b.pc = FlushPc.awaitWrite ∧ b.rerun = true then 1 else 0) := by
                simp [h, hrerun]
              rw [heq]
              exact ih
            simpa [hb] using hble
          · have hble : b.writes ≤ c.writes + 1 :=
              le_trans (Nat.le_add_right _ _) ih
            simpa [hb] using hble
      | writeErr d h =>
          unfold finishWrite
          by_cases hb : (b.rerun && (!b.mutSince || d)) = true
          · have hrerun : b.rerun = true := by
              rw [Bool.and_eq_true] at hb
              exact hb.1
            have hble : b.writes + 1 ≤ c.writes + 1 := by
              have heq : b.writes + 1
                  = b.writes + (if b.pc = FlushPc.awaitWrite ∧ b.rerun = true then 1 else 0) := by
                simp [h, hrerun]
              rw [heq]
              exact ih
            simpa [hb] using hble
          · have hble : b.writes ≤ c.writes + 1 :=
              le_trans (Nat.le_add_right _ _) ih
            simpa [hb] using hble

/-- C1: single-flight save.  A flushSave invocation while a flush is in
progress performs no network write itself and only sets the rerun flag; in
every reachable configuration at most one network write is in flight (never
two concurrent PATCH/POST writes for the scene); and from a configuration
with a write in flight, the quiescent continuation (the in-progress flush
completing, plus the coalesced rerun) issues at most one additional network
write. -/
theorem C1_flushSave_single_flight :
    (∀ c : FlushCfg, c.pc = FlushPc.awaitWrite →
        FlushStep c { c with rerun := true }
        ∧ ({ c with rerun := true } : FlushCfg).writes = c.writes
        ∧ ({ c with rerun := true } : FlushCfg).writing = c.writing)
    ∧ (∀ c : FlushCfg, FlushReach c → c.writing ≤ 1)
    ∧ (∀ c c2 : FlushCfg, c.pc = FlushPc.awaitWrite → QuiesceReach c c2 →
        c2.writes ≤ c.writes + 1) := by
  refine ⟨fun c h => ⟨FlushStep.enterBusy c h, rfl, rfl⟩, fun c h => ?_, fun c c2 _ h2 => ?_⟩
  · rw [flushReach_writing_eq c h]
    by_cases hb : c.pc = FlushPc.awaitWrite <;> simp [hb]
  · calc c2.writes
        ≤ c2.writes + (if c2.pc = FlushPc.awaitWrite ∧ c2.rerun = true then 1 else 0) :=
          Nat.le_add_right _ _
      _ ≤ c.writes + 1 := quiesce_writes_bound c c2 h2

/-- Witness for C1 at a concrete reachable configuration: a first flush is
awaiting its write and a second invocation has set the rerun flag. -/
theorem C1_flushSave_single_flight_witness :
    FlushReach ⟨FlushPc.awaitWrite, true, true, false, 1, 1⟩
    ∧ (⟨FlushPc.awaitWrite, true, true, false, 1, 1⟩ : FlushCfg).writing ≤ 1
    ∧ (⟨FlushPc.awaitWrite, true, true, false, 1, 1⟩ : FlushCfg).writes ≤ 1 + 1 := by
  have h0 : FlushReach ⟨FlushPc.idle, false, true, false, 0, 0⟩ := FlushReach.init true
  have h1 : FlushReach ⟨FlushPc.awaitWrite, false, true, false, 1, 1⟩ :=
    FlushReach.step h0 (FlushStep.enterWrite _ rfl rfl)
  have h2 : FlushReach ⟨FlushPc.awaitWrite, true, true, false, 1, 1⟩ :=
    FlushReach.step h1 (FlushStep.enterBusy _ rfl)
  refine ⟨h2, C1_flushSave_single_flight.2.1 _ h2, ?_⟩
  exact C1_flushSave_single_flight.2.2 _ _ rfl Relation.ReflTransGen.refl

/-- C10: the number of placeholder pairs created per image-edit request is
exactly max(1, min(4, round(count))) when the guards pass — in particular it
is at most 4 whatever count is supplied (the capped count also bounds every
guarded call, where an early return creates none). -/
theorem C10_createEditImagePlaceholders_count (activeSceneId : Option String)
    (apiReady : Bool) (existing : List Element) (mkGroup mkRectId mkTextId : Nat → String)
    (sceneId : Option String) (bounds : SelectionBounds) (label createdAt : String)
    (count : ℚ) (hscene : sceneId = activeSceneId) (hapi : apiReady = true) :
    (createEditImagePlaceholders activeSceneId apiReady existing mkGroup mkRectId mkTextId
        sceneId bounds label createdAt count).1.length
      = (max 1 (min 4 (jsRound count))).toNat
    ∧ (∀ (a2 : Option String) (r2 : Bool) (es2 : List Element),
        (createEditImagePlaceholders a2 r2 es2 mkGroup mkRectId mkTextId
            sceneId bounds label createdAt count).1.length ≤ 4) := by
  have hcap : (max 1 (min 4 (jsRound count))).toNat ≤ 4 := by
    have h1 : min 4 (jsRound count) ≤ 4 := min_le_left _ _
    have h2 : max 1 (min 4 (jsRound count)) ≤ 4 := max_le (by norm_num) h1
    omega
  constructor
  · subst hscene hapi
    simp [createEditImagePlaceholders]
  · intro a2 r2 es2
    by_cases hs : sceneId ≠ a2
    · simp [createEditImagePlaceholders, hs]
    · by_cases hr : r2 = false
      · simp [createEditImagePlaceholders, hs, hr]
      · simp [createEditImagePlaceholders, hs, hr, hcap]

/-- Witness for C10 at a concrete input: a request for nine result images
creates exactly four placeholder pairs. -/
theorem C10_createEditImagePlaceholders_count_witness :
    (createEditImagePlaceholders (some "s") true [] (fun n => toString n)
        (fun n => "r" ++ toString n) (fun n => "t" ++ toString n)
        (some "s") ⟨0, 0, 100, 50⟩ "editing" "now" 9).1.length
      = (max 1 (min 4 (jsRound 9))).toNat
    ∧ (max 1 (min 4 (jsRound (9 : ℚ)))).toNat = 4 := by
  refine ⟨(C10_createEditImagePlaceholders_count (some "s") true [] (fun n => toString n)
    (fun n => "r" ++ toString n) (fun n => "t" ++ toString n)
    (some "s") ⟨0, 0, 100, 50⟩ "editing" "now" 9 rfl rfl).1, ?_⟩
  norm_num [jsRound]
  decide

theorem recover_foldl_fetches (sceneId : String) (placeholderFor : String → Bool)
    (jobs : List (String × String)) (acc : RecoverySt) :
    (jobs.foldl (fun acc job =>
      if (job.2 = "QUEUED" ∨ job.2 = "RUNNING") ∧ placeholderFor job.1 = true then
        startVideoPoll acc sceneId job.1
      else acc) acc).historyFetches = acc.historyFetches
    ∧ (jobs.foldl (fun acc job =>
      if (job.2 = "QUEUED" ∨ job.2 = "RUNNING") ∧ placeholderFor job.1 = true then
        startVideoPoll acc sceneId job.1
      else acc) acc).submissions = acc.submissions := by
  induction jobs generalizing acc with
  | nil => exact ⟨rfl, rfl⟩
  | cons job rest ih =>
      have hstep : ∀ a : RecoverySt,
          ((if (job.2 = "QUEUED" ∨ job.2 = "RUNNING") ∧ placeholderFor job.1 = true then
              startVideoPoll a sceneId job.1
            else a).historyFetches = a.historyFetches
          ∧ (if (job.2 = "QUEUED" ∨ job.2 = "RUNNING") ∧ placeholderFor job.1 = true then
              startVideoPoll a sceneId job.1
            else a).submissions = a.submissions) := by
        intro a
        by_cases hc : (job.2 = "QUEUED" ∨ job.2 = "RUNNING") ∧ placeholderFor job.1 = true
        · by_cases hm : pollKeyOf sceneId job.1 ∈ a.pollInFlight <;>
            simp [hc, startVideoPoll, hm]
        · simp [hc]
      simp only [List.foldl_cons]
      constructor
      · rw [(ih _).1, (hstep _).1]
      · rw [(ih _).2, (hstep _).2]

/-- C9 counterexample: two ticks of the periodic backlog sync during a single
scene activation fetch the job history twice (the tick clears the recovered
flag before re-invoking recovery), refuting "at most once per activation";
moreover a QUEUED job with no matching placeholder is not resumed. -/
theorem C9_counterexample :
    (syncSceneBacklog (syncSceneBacklog ⟨false, 0, [], 0⟩ "s" [("j1", "RUNNING")]
        (fun _ => false)) "s" [("j1", "RUNNING")] (fun _ => false)).historyFetches = 2
    ∧ ¬ ((2 : Nat) ≤ 1)
    ∧ (recoverVideoJobsForScene ⟨false, 0, [], 0⟩ "s" [("j1", "QUEUED")]
        (fun _ => false)).pollInFlight = [] := by
  refine ⟨?_, by omega, ?_⟩ <;>
    simp [syncSceneBacklog, recoverVideoJobsForScene]

/-- C9 amended: a second invocation of the recovery routine while the
per-scene recovered flag is set is a no-op; each recovery pass fetches the
history at most once and submits no job; each backlog-sync tick re-fetches at
most once (so the history is fetched at most once per tick, not per
activation); QUEUED or RUNNING jobs are resumed only through the poll entry,
which is a no-op when a poll for the same (sceneId, jobId) key is already in
flight. -/
theorem C9_recovery_once_per_pass (st : RecoverySt) (sceneId : String)
    (jobs : List (String × String)) (placeholderFor : String → Bool) :
    (st.recovered = true → recoverVideoJobsForScene st sceneId jobs placeholderFor = st)
    ∧ (recoverVideoJobsForScene st sceneId jobs placeholderFor).submissions = st.submissions
    ∧ (recoverVideoJobsForScene st sceneId jobs placeholderFor).historyFetches
        ≤ st.historyFetches + 1
    ∧ (syncSceneBacklog st sceneId jobs placeholderFor).historyFetches
        ≤ st.historyFetches + 1
    ∧ (∀ jobId, pollKeyOf sceneId jobId ∈ st.pollInFlight →
        startVideoPoll st sceneId jobId = st) := by
  refine ⟨fun hrec => by simp [recoverVideoJobsForScene, hrec], ?_, ?_, ?_, ?_⟩
  · by_cases hrec : st.recovered = true
    · simp [recoverVideoJobsForScene, hrec]
    · simp only [recoverVideoJobsForScene, hrec]
      simp only [Bool.false_eq_true, if_false]
      rw [(recover_foldl_fetches sceneId placeholderFor jobs _).2]
  · by_cases hrec : st.recovered = true
    · simp [recoverVideoJobsForScene, hrec]
    · simp only [recoverVideoJobsForScene, hrec]
      simp only [Bool.false_eq_true, if_false]
      rw [(recover_foldl_fetches sceneId placeholderFor jobs _).1]
  · simp only [syncSceneBacklog, recoverVideoJobsForScene]
    simp only [Bool.false_eq_true, if_false]
    rw [(recover_foldl_fetches sceneId placeholderFor jobs _).1]
  · intro jobId hmem
    simp [startVideoPoll, hmem]

/-- Witness for C9 at a concrete input: with the recovered flag set the
recovery routine changes nothing, and a duplicate poll start is a no-op. -/
theorem C9_recovery_once_per_pass_witness :
    recoverVideoJobsForScene ⟨true, 3, ["s:j1"], 5⟩ "s" [("j1", "RUNNING")]
        (fun _ => true) = ⟨true, 3, ["s:j1"], 5⟩
    ∧ startVideoPoll ⟨true, 3, ["s:j1"], 5⟩ "s" "j1" = ⟨true, 3, ["s:j1"], 5⟩ := by
  refine ⟨(C9_recovery_once_per_pass ⟨true, 3, ["s:j1"], 5⟩ "s" [("j1", "RUNNING")]
      (fun _ => true)).1 rfl, ?_⟩
  exact (C9_recovery_once_per_pass ⟨true, 3, ["s:j1"], 5⟩ "s" [("j1", "RUNNING")]
      (fun _ => true)).2.2.2.2 "j1" (by simp [pollKeyOf])

/-- C8 counterexample: a SUCCEEDED video job polled while its scene (B) is no
longer the active scene (A) leaves the document untouched — the completion
result is not applied; both pinned-element creators return without inserting
when the job's scene is not active. -/
theorem C8_counterexample :
    pollVideoSucceededStep (some "A") true [] none 0 0 "f1" "e1" "now" "B" "job1"
        (some "http://x/v.mp4") none none (some (some 640, some 360)) = ([], false)
    ∧ createPinnedVideo (some "A") true [] none 0 0 "f1" "e1" "now" (some "B")
        "http://x/v.mp4" none none none (some (some 640, some 360)) = ([], false)
    ∧ createPinnedImage (some "A") true [] none 0 0 "f1" "e1" "now" (some "B")
        ⟨some "http://x/i.png", none, none, none, none⟩ none []
        (some (some 64, some 64)) = ([], none) := by
  refine ⟨?_, rfl, rfl⟩
  simp [pollVideoSucceededStep]

/-- C8 amended: a completion result observed for a scene that is no longer
the active scene is not applied to that scene's document at that moment — the
SUCCEEDED poll branch skips the insertion and the pinned-element creators
return early without touching the element list (the result is only
reconciled later by the recovery pass on the scene's next activation). -/
theorem C8_inactive_scene_result_not_applied (activeSceneId : Option String)
    (apiReady : Bool) (es : List Element) (pinOrigin : Option (ℚ × ℚ))
    (scrollX scrollY : ℚ) (fileId elemId createdAt : String)
    (sceneId jobId : String) (resultUrl thumbnailUrl : Option String)
    (ph : Option ImagePlaceholder) (load : Option (Option ℚ × Option ℚ))
    (sceneOpt : Option String) (videoUrl : String) (tool : ToolResultData)
    (meta : List (String × Json))
    (hactive : activeSceneId ≠ some sceneId) (hopt : sceneOpt ≠ activeSceneId) :
    pollVideoSucceededStep activeSceneId apiReady es pinOrigin scrollX scrollY
        fileId elemId createdAt sceneId jobId resultUrl thumbnailUrl ph load = (es, false)
    ∧ createPinnedVideo activeSceneId apiReady es pinOrigin scrollX scrollY
        fileId elemId createdAt sceneOpt videoUrl thumbnailUrl ph (some jobId) load
        = (es, false)
    ∧ createPinnedImage activeSceneId apiReady es pinOrigin scrollX scrollY
        fileId elemId createdAt sceneOpt tool ph meta load = (es, none) := by
  refine ⟨?_, ?_, ?_⟩
  · cases resultUrl with
    | none => rfl
    | some url =>
        simp only [pollVideoSucceededStep]
        rw [if_neg (fun h => hactive h.2)]
  · simp only [createPinnedVideo]
    rw [if_pos hopt]
  · simp only [createPinnedImage]
    rw [if_pos hopt]

/-- Witness for C8 (amended) at a concrete input: scene B's result is skipped
while scene A is active. -/
theorem C8_inactive_scene_result_not_applied_witness :
    pollVideoSucceededStep (some "A") true [] none 0 0 "f" "e" "t" "B" "j"
        (some "u") none none none = ([], false)
    ∧ createPinnedVideo (some "A") true [] none 0 0 "f" "e" "t" (some "B")
        "u" none none (some "j") none = ([], false) :=
  ⟨(C8_inactive_scene_result_not_applied (some "A") true [] none 0 0 "f" "e" "t"
      "B" "j" (some "u") none none none (some "B") "u"
      ⟨none, none, none, none, none⟩ [] (by decide) (by decide)).1,
   (C8_inactive_scene_result_not_applied (some "A") true [] none 0 0 "f" "e" "t"
      "B" "j" (some "u") none none none (some "B") "u"
      ⟨none, none, none, none, none⟩ [] (by decide) (by decide)).2.1⟩

theorem noDuplicate_filter_nil (es : List Element) (a : Option String)
    (j : String) (o : Int)
    (h : findDuplicateEditedImage es a (some j) (some o) = false) :
    es.filter (fun e => !e.isDeleted && e.typ == ElType.image
      && jsStringOr (cdata e "aiEditJobId") "" == j
      && jsNumber (cdata e "aiEditOrder") == some o) = [] := by
  unfold findDuplicateEditedImage at h
  by_cases hemp : es.isEmpty
  · rw [List.isEmpty_iff] at hemp
    subst hemp
    rfl
  · rw [if_neg hemp] at h
    rw [Bool.or_eq_false_iff] at h
    have hany := h.2
    rw [List.filter_eq_nil_iff]
    intro e he
    have := List.any_eq_false.mp hany e he
    simpa using this

theorem countFinalEdited_zero (es : List Element) (a : Option String)
    (j : String) (o : Int)
    (h : findDuplicateEditedImage es a (some j) (some o) = false) :
    countFinalEdited es j o = 0 := by
  unfold countFinalEdited
  rw [noDuplicate_filter_nil es a j o h]
  rfl

theorem insertEditedImage_first_insert (es : List Element) (bounds : SelectionBounds)
    (result : ToolResultData) (ps : Option String) (g rid tid : String)
    (rectEl : Element) (j : String) (o : Int) (u : String) (dw dh : Option ℚ)
    (fileId imgId : String)
    (hurl : result.url = some u) (hu : u ≠ "")
    (hfind : es.find? (fun (e : Element) => e.id == rid || e.id == tid) = some rectEl)
    (hfindLive : es.find? (fun (e : Element) => e.id == rid && !e.isDeleted) = some rectEl)
    (hjob : cdata rectEl "aiEditJobId" = Json.str j) (hj : j ≠ "")
    (horder : cdata rectEl "aiEditOrder" = Json.num o)
    (hnodup : findDuplicateEditedImage es result.asset_id (some j) (some o) = false) :
    insertEditedImage true es es bounds result (some ⟨ps, g, rid, tid⟩)
        (some (dw, dh)) fileId imgId
      = ((es.map (fun (e : Element) =>
            if e.id == rid || e.id == tid then tombstoneElement e else e))
         ++ [createImageElement imgId
              (insertEditedImageGeometry bounds result (some rectEl) dw dh).1
              (insertEditedImageGeometry bounds result (some rectEl) dw dh).2.1
              (insertEditedImageGeometry bounds result (some rectEl) dw dh).2.2.1
              (insertEditedImageGeometry bounds result (some rectEl) dw dh).2.2.2
              (some fileId)
              [("aiEditSourceId", Json.str "selection"),
               ("aiEditAssetId", match result.asset_id with
                                 | some a => Json.str a
                                 | none => Json.null),
               ("aiEditImageUrl", Json.str u),
               ("aiEditJobId", Json.str j),
               ("aiEditOrder", Json.num o)]], true) := by
  have htr : (Json.str j).truthy = true := by
    simp [Json.truthy, hj]
  simp only [insertEditedImage, hurl]
  rw [if_neg (by simp : ¬ (true = false))]
  dsimp only
  rw [if_neg hu]
  simp only [hfind]
  dsimp only [Option.bind]
  simp only [hjob, htr, horder, jsNumber, jsString, eq_self_iff_true, if_true, hnodup,
    Bool.false_eq_true, if_false, hfindLive]
  rfl

theorem cdata_tombstone (e : Element) (k : String) :
    cdata (tombstoneElement e) k = cdata e k := rfl

theorem id_tombstone (e : Element) : (tombstoneElement e).id = e.id := rfl

/-- C2: idempotent job resolution.  Starting from a document with no final
element for (job id, result ordinal) and a live placeholder pair tagged with
them, the first resolution inserts exactly one final element and tombstones
the pair; resolving the same result a second time finds the duplicate,
leaves the (already tombstoned) placeholder retired, changes nothing and
still reports success, so exactly one final element for that pair exists; the
pinned-image path likewise detects the duplicate by (job id, ordinal) and
performs no insertion. -/
theorem C2_idempotent_resolution (es : List Element) (bounds : SelectionBounds)
    (result : ToolResultData) (ps : Option String) (g rid tid : String)
    (rectEl : Element) (j : String) (o : Int) (u : String) (dw dh : Option ℚ)
    (fileId imgId fileId2 imgId2 : String)
    (hurl : result.url = some u) (hu : u ≠ "")
    (hfind : es.find? (fun (e : Element) => e.id == rid || e.id == tid) = some rectEl)
    (hfindLive : es.find? (fun (e : Element) => e.id == rid && !e.isDeleted) = some rectEl)
    (hjob : cdata rectEl "aiEditJobId" = Json.str j) (hj : j ≠ "")
    (horder : cdata rectEl "aiEditOrder" = Json.num o)
    (hnodup : findDuplicateEditedImage es result.asset_id (some j) (some o) = false)
    (hfresh1 : imgId ≠ rid) (hfresh2 : imgId ≠ tid) :
    (insertEditedImage true es es bounds result (some ⟨ps, g, rid, tid⟩)
        (some (dw, dh)) fileId imgId).2 = true
    ∧ countFinalEdited (insertEditedImage true es es bounds result (some ⟨ps, g, rid, tid⟩)
        (some (dw, dh)) fileId imgId).1 j o = 1
    ∧ (∀ e ∈ (insertEditedImage true es es bounds result (some ⟨ps, g, rid, tid⟩)
          (some (dw, dh)) fileId imgId).1,
        (e.id = rid ∨ e.id = tid) → e.isDeleted = true)
    ∧ insertEditedImage true
        (insertEditedImage true es es bounds result (some ⟨ps, g, rid, tid⟩)
          (some (dw, dh)) fileId imgId).1
        (insertEditedImage true es es bounds result (some ⟨ps, g, rid, tid⟩)
          (some (dw, dh)) fileId imgId).1
        bounds result (some ⟨ps, g, rid, tid⟩) (some (dw, dh)) fileId2 imgId2
      = ((insertEditedImage true es es bounds result (some ⟨ps, g, rid, tid⟩)
          (some (dw, dh)) fileId imgId).1, true)
    ∧ (∀ (sid : String) (pin : Option (ℚ × ℚ)) (sx sy : ℚ) (f2 i2 ca : String)
        (loadC : Option (Option ℚ × Option ℚ)) (tool2 : ToolResultData) (u2 : String),
        tool2.url = some u2 → u2 ≠ "" →
        createPinnedImage (some sid) true
          (insertEditedImage true es es bounds result (some ⟨ps, g, rid, tid⟩)
            (some (dw, dh)) fileId imgId).1 pin sx sy f2 i2 ca (some sid) tool2 none
          [("aiEditJobId", Json.str j), ("aiEditOrder", Json.num o)] loadC
        = ((insertEditedImage true es es bounds result (some ⟨ps, g, rid, tid⟩)
            (some (dw, dh)) fileId imgId).1, some true)) := by
  have htr : (Json.str j).truthy = true := by
    simp [Json.truthy, hj]
  have hkey := insertEditedImage_first_insert es bounds result ps g rid tid rectEl
    j o u dw dh fileId imgId hurl hu hfind hfindLive hjob hj horder hnodup
  rw [hkey]
  set f : Element → Element :=
    fun e => if e.id == rid || e.id == tid then tombstoneElement e else e with hf
  set img : Element := createImageElement imgId
    (insertEditedImageGeometry bounds result (some rectEl) dw dh).1
    (insertEditedImageGeometry bounds result (some rectEl) dw dh).2.1
    (insertEditedImageGeometry bounds result (some rectEl) dw dh).2.2.1
    (insertEditedImageGeometry bounds result (some rectEl) dw dh).2.2.2
    (some fileId)
    [("aiEditSourceId", Json.str "selection"),
     ("aiEditAssetId", match result.asset_id with
                       | some a => Json.str a
                       | none => Json.null),
     ("aiEditImageUrl", Json.str u),
     ("aiEditJobId", Json.str j),
     ("aiEditOrder", Json.num o)] with himg
  -- facts about the inserted image
  have hlook1 : cdata img "aiEditJobId" = Json.str j := by rw [himg]; rfl
  have hlook2 : cdata img "aiEditOrder" = Json.num o := by rw [himg]; rfl
  have himgdel : img.isDeleted = false := by rw [himg]; rfl
  have himgtyp : img.typ = ElType.image := by rw [himg]; rfl
  have himgpred : (!img.isDeleted && img.typ == ElType.image
      && jsStringOr (cdata img "aiEditJobId") "" == j
      && jsNumber (cdata img "aiEditOrder") == some o) = true := by
    simp [himgdel, himgtyp, hlook1, hlook2, jsStringOr, jsString, jsNumber, Json.truthy, hj]
  have himgid : img.id = imgId := by rw [himg]; rfl
  -- nothing in the base document matches (j, o)
  have hesnil := noDuplicate_filter_nil es result.asset_id j o hnodup
  have hes_none : ∀ e ∈ es, (!e.isDeleted && e.typ == ElType.image
      && jsStringOr (cdata e "aiEditJobId") "" == j
      && jsNumber (cdata e "aiEditOrder") == some o) = false := by
    intro e he
    have := List.filter_eq_nil_iff.mp hesnil e he
    simpa using this
  -- pair-leg analysis of the mapped prefix
  have hmap_cases : ∀ e2 ∈ es.map f, (e2.id = rid ∨ e2.id = tid) → e2.isDeleted = true := by
    intro e2 he2 hid2
    obtain ⟨e, he, rfl⟩ := List.mem_map.mp he2
    by_cases hc : (e.id == rid || e.id == tid) = true
    · rw [hf]
      simp only [hc, if_true]
      rfl
    · exfalso
      apply hc
      have hide : (f e).id = e.id := by
        rw [hf]
        by_cases hc2 : (e.id == rid || e.id == tid) = true
        · simp only [hc2, if_true]; rfl
        · simp only [hc2]; rfl
      rw [hide] at hid2
      rcases hid2 with h1 | h1 <;> simp [h1]
  have hmap_none : ∀ e2 ∈ es.map f, (!e2.isDeleted && e2.typ == ElType.image
      && jsStringOr (cdata e2 "aiEditJobId") "" == j
      && jsNumber (cdata e2 "aiEditOrder") == some o) = false := by
    intro e2 he2
    obtain ⟨e, he, rfl⟩ := List.mem_map.mp he2
    by_cases hc : (e.id == rid || e.id == tid) = true
    · rw [hf]
      simp only [hc, if_true]
      simp [tombstoneElement]
    · rw [hf]
      simp only [hc, if_false]
      exact hes_none e he
  refine ⟨rfl, ?_, ?_, ?_, ?_⟩
  · -- exactly one final element
    unfold countFinalEdited
    rw [List.filter_append]
    have h1 : (es.map f).filter (fun e => !e.isDeleted && e.typ == ElType.image
        && jsStringOr (cdata e "aiEditJobId") "" == j
        && jsNumber (cdata e "aiEditOrder") == some o) = [] := by
      rw [List.filter_eq_nil_iff]
      intro e2 he2
      simp [hmap_none e2 he2]
    rw [h1]
    simp [himgpred]
  · -- both placeholder legs are tombstoned
    intro e he hid
    rcases List.mem_append.mp he with h1 | h1
    · exact hmap_cases e h1 hid
    · exfalso
      have : e = img := by simpa using h1
      rw [this, himgid] at hid
      rcases hid with h2 | h2
      · exact hfresh1 h2
      · exact hfresh2 h2
  · -- the second resolution is a no-op that still succeeds
    have hfind2 : (es.map f ++ [img]).find?
        (fun (e : Element) => e.id == rid || e.id == tid)
        = some (tombstoneElement rectEl) := by
      rw [List.find?_append]
      have hcomp : ((fun (e : Element) => e.id == rid || e.id == tid) ∘ f)
          = (fun (e : Element) => e.id == rid || e.id == tid) := by
        funext e
        show ((f e).id == rid || (f e).id == tid) = (e.id == rid || e.id == tid)
        rw [hf]
        by_cases hc : (e.id == rid || e.id == tid) = true
        · simp only [hc, if_true]
          exact hc
        · have hc2 : (e.id == rid || e.id == tid) = false := by simpa using hc
          simp [hc2]
      rw [List.find?_map, hcomp, hfind]
      have hrect : f rectEl = tombstoneElement rectEl := by
        rw [hf]
        have := List.find?_some hfind
        simp only [this, if_true]
      simp [hrect]
    have hdup2 : findDuplicateEditedImage (es.map f ++ [img]) result.asset_id
        (some j) (some o) = true := by
      unfold findDuplicateEditedImage
      have hne : (es.map f ++ [img]).isEmpty = false := by
        simp
      rw [hne]
      simp only [Bool.false_eq_true, if_false]
      have hany : (es.map f ++ [img]).any (fun e => !e.isDeleted && e.typ == ElType.image
          && jsStringOr (cdata e "aiEditJobId") "" == j
          && jsNumber (cdata e "aiEditOrder") == some o) = true :=
        List.any_eq_true.mpr ⟨img, by simp, himgpred⟩
      rw [hany]
      simp
    have hremove : removePlaceholderIfPresent (some ⟨ps, g, rid, tid⟩)
        (es.map f ++ [img]) = (es.map f ++ [img], false) := by
      have hch : (es.map f ++ [img]).any (fun e =>
          (e.id == rid || e.id == tid) && !e.isDeleted) = false := by
        rw [List.any_eq_false]
        intro e he
        rcases List.mem_append.mp he with h1 | h1
        · by_cases hid : (e.id = rid ∨ e.id = tid)
          · have := hmap_cases e h1 hid
            simp [this]
          · have : (e.id == rid || e.id == tid) = false := by
              push_neg at hid
              simp [hid.1, hid.2]
            simp [this]
        · have : e = img := by simpa using h1
          rw [this, himgid]
          simp [hfresh1, hfresh2]
      simp only [removePlaceholderIfPresent, hch]
      simp
    simp only [insertEditedImage, hurl]
    rw [if_neg (by simp : ¬ (true = false))]
    dsimp only
    rw [if_neg hu]
    simp only [hfind2, cdata_tombstone]
    dsimp only [Option.bind]
    simp only [hjob, htr, horder, jsNumber, jsString, eq_self_iff_true, if_true, hdup2,
      cdata_tombstone, hremove]
  · -- the pinned-image path also detects the duplicate
    intro sid pin sx sy f2 i2 ca loadC tool2 u2 hurl2 hu2
    simp only [createPinnedImage, hurl2]
    rw [if_neg (by simp : ¬ (some sid ≠ some sid))]
    rw [if_neg (by simp : ¬ (true = false))]
    rw [if_neg hu2]
    have hmeta : metaGet [("aiEditJobId", Json.str j), ("aiEditOrder", Json.num o)]
        "aiEditJobId" = Json.str j := rfl
    have hmeta2 : metaGet [("aiEditJobId", Json.str j), ("aiEditOrder", Json.num o)]
        "aiEditOrder" = Json.num o := by
      simp [metaGet, List.lookup]
    have hdupJob : (es.map f ++ [img]).any (fun e =>
        !e.isDeleted && e.typ == ElType.image
        && jsStringOr (cdata e "aiEditJobId") "" == j
        && (match jsNumber (metaGet [("aiEditJobId", Json.str j),
              ("aiEditOrder", Json.num o)] "aiEditOrder") with
            | some o2 => jsNumber (cdata e "aiEditOrder") == some o2
            | none => true)) = true := by
      apply List.any_eq_true.mpr
      refine ⟨img, by simp, ?_⟩
      rw [hmeta2]
      dsimp only [jsNumber]
      simpa using himgpred
    simp only [hmeta, htr, jsString, eq_self_iff_true, if_true, hdupJob]

/-- Witness for C2 at a concrete input: resolving a result onto a live
placeholder pair tagged (job1, 0) succeeds and leaves exactly one final
element for (job1, 0). -/
theorem C2_idempotent_resolution_witness :
    (insertEditedImage true
      [⟨"rid", ElType.rectangle, false, ["g"],
        [("aiEditType", Json.str "image-placeholder"), ("aiEditJobId", Json.str "job1"),
         ("aiEditOrder", Json.num 0)], 0, 0, 400, 400, "", none, 1⟩,
       ⟨"tid", ElType.text, false, ["g"],
        [("aiEditType", Json.str "image-placeholder"), ("aiEditJobId", Json.str "job1"),
         ("aiEditOrder", Json.num 0)], 12, 12, 376, 24, "generating", none, 1⟩]
      [⟨"rid", ElType.rectangle, false, ["g"],
        [("aiEditType", Json.str "image-placeholder"), ("aiEditJobId", Json.str "job1"),
         ("aiEditOrder", Json.num 0)], 0, 0, 400, 400, "", none, 1⟩,
       ⟨"tid", ElType.text, false, ["g"],
        [("aiEditType", Json.str "image-placeholder"), ("aiEditJobId", Json.str "job1"),
         ("aiEditOrder", Json.num 0)], 12, 12, 376, 24, "generating", none, 1⟩]
      ⟨0, 0, 100, 100⟩ ⟨some "http://x/i.png", some "asset1", none, none, none⟩
      (some ⟨some "s", "g", "rid", "tid"⟩) (some (none, none)) "file1" "img1").2 = true
    ∧ countFinalEdited (insertEditedImage true
      [⟨"rid", ElType.rectangle, false, ["g"],
        [("aiEditType", Json.str "image-placeholder"), ("aiEditJobId", Json.str "job1"),
         ("aiEditOrder", Json.num 0)], 0, 0, 400, 400, "", none, 1⟩,
       ⟨"tid", ElType.text, false, ["g"],
        [("aiEditType", Json.str "image-placeholder"), ("aiEditJobId", Json.str "job1"),
         ("aiEditOrder", Json.num 0)], 12, 12, 376, 24, "generating", none, 1⟩]
      [⟨"rid", ElType.rectangle, false, ["g"],
        [("aiEditType", Json.str "image-placeholder"), ("aiEditJobId", Json.str "job1"),
         ("aiEditOrder", Json.num 0)], 0, 0, 400, 400, "", none, 1⟩,
       ⟨"tid", ElType.text, false, ["g"],
        [("aiEditType", Json.str "image-placeholder"), ("aiEditJobId", Json.str "job1"),
         ("aiEditOrder", Json.num 0)], 12, 12, 376, 24, "generating", none, 1⟩]
      ⟨0, 0, 100, 100⟩ ⟨some "http://x/i.png", some "asset1", none, none, none⟩
      (some ⟨some "s", "g", "rid", "tid"⟩) (some (none, none)) "file1" "img1").1
      "job1" 0 = 1 := by
  have h := C2_idempotent_resolution
    [⟨"rid", ElType.rectangle, false, ["g"],
      [("aiEditType", Json.str "image-placeholder"), ("aiEditJobId", Json.str "job1"),
       ("aiEditOrder", Json.num 0)], 0, 0, 400, 400, "", none, 1⟩,
     ⟨"tid", ElType.text, false, ["g"],
      [("aiEditType", Json.str "image-placeholder"), ("aiEditJobId", Json.str "job1"),
       ("aiEditOrder", Json.num 0)], 12, 12, 376, 24, "generating", none, 1⟩]
    ⟨0, 0, 100, 100⟩ ⟨some "http://x/i.png", some "asset1", none, none, none⟩
    (some "s") "g" "rid" "tid"
    ⟨"rid", ElType.rectangle, false, ["g"],
      [("aiEditType", Json.str "image-placeholder"), ("aiEditJobId", Json.str "job1"),
       ("aiEditOrder", Json.num 0)], 0, 0, 400, 400, "", none, 1⟩
    "job1" 0 "http://x/i.png" none none "file1" "img1" "file2" "img2"
    rfl (by decide) rfl rfl rfl (by decide) rfl rfl (by decide) (by decide)
  exact ⟨h.1, h.2.1⟩

theorem processFrames_cons_nondata (parse : String → Option Json) (st : ChatSt)
    (raw : String) (rest : List String) (ha : jsStartsWith raw "data:" = false) :
    processFrames parse st (raw :: rest) = processFrames parse st rest := by
  simp only [processFrames, ha, Bool.false_eq_true, if_false]

theorem processFrames_cons_malformed (parse : String → Option Json) (st : ChatSt)
    (raw : String) (rest : List String) (ha : jsStartsWith raw "data:" = true)
    (hp : parse (stripDataPre raw) = none) :
    processFrames parse st (raw :: rest) = processFrames parse st rest := by
  simp only [processFrames, ha, eq_self_iff_true, if_true, hp]

theorem processFrames_cons_payload (parse : String → Option Json) (st : ChatSt)
    (raw : String) (rest : List String) (payload : Json)
    (ha : jsStartsWith raw "data:" = true)
    (hp : parse (stripDataPre raw) = some payload) :
    processFrames parse st (raw :: rest)
      = (if (payload.get "error").truthy
         then dispatchPayload parse st payload
         else processFrames parse (dispatchPayload parse st payload) rest) := by
  simp only [processFrames, ha, eq_self_iff_true, if_true, hp]

theorem processFrames_skip_malformed (parse : String → Option Json) (bad : String)
    (hb : jsStartsWith bad "data:" = true) (hp : parse (stripDataPre bad) = none) :
    ∀ (xs : List String) (st : ChatSt) (ys : List String),
      processFrames parse st (xs ++ bad :: ys) = processFrames parse st (xs ++ ys) := by
  intro xs
  induction xs with
  | nil =>
      intro st ys
      rw [List.nil_append, List.nil_append, processFrames_cons_malformed parse st bad ys hb hp]
  | cons a rest ih =>
      intro st ys
      rw [List.cons_append, List.cons_append]
      cases ha : jsStartsWith a "data:" with
      | false =>
          rw [processFrames_cons_nondata parse st a _ ha,
            processFrames_cons_nondata parse st a _ ha]
          exact ih st ys
      | true =>
          cases hpa : parse (stripDataPre a) with
          | none =>
              rw [processFrames_cons_malformed parse st a _ ha hpa,
                processFrames_cons_malformed parse st a _ ha hpa]
              exact ih st ys
          | some payload =>
              rw [processFrames_cons_payload parse st a _ payload ha hpa,
                processFrames_cons_payload parse st a _ payload ha hpa]
              by_cases herr : (payload.get "error").truthy = true
              · rw [if_pos herr, if_pos herr]
              · rw [if_neg herr, if_neg herr]
                exact ih _ ys

/-- C7: the stream handler is robust — a frame whose payload fails to parse
is skipped and the rest of the stream is processed exactly as if the
malformed frame were absent (the stream is never aborted by it); and a turn
whose stream completes with no final message, no accumulated text and no
stream error makes exactly one non-streaming fallback request, whose result
message is appended as the assistant message. -/
theorem C7_malformed_frames_skipped_and_fallback :
    (∀ (parse : String → Option Json) (st : ChatSt) (xs ys : List String) (bad : String),
        jsStartsWith bad "data:" = true → parse (stripDataPre bad) = none →
        processFrames parse st (xs ++ bad :: ys) = processFrames parse st (xs ++ ys))
    ∧ (∀ (st : ChatSt) (fb : Option String),
        st.streamError = none → st.appendedFinal = false → jsTrim st.assistantContent = "" →
        (finishTurn st fb).fallbackRequests = 1
        ∧ (∀ c, fb = some c → (finishTurn st fb).appendedAssistant = [c])) := by
  constructor
  · intro parse st xs ys bad hb hp
    exact processFrames_skip_malformed parse bad hb hp xs st ys
  · intro st fb herr hfin htrim
    have hft : finishTurn st fb = chatFallbackCall fb := by
      unfold finishTurn
      rw [if_neg (by simp [herr])]
      rw [if_pos ⟨by simp [hfin], htrim⟩]
    refine ⟨?_, ?_⟩
    · rw [hft]
      cases fb <;> rfl
    · intro c hc
      rw [hft, hc]
      rfl

/-- Witness for C7 at a concrete input: an unparsable data frame is skipped
(the run equals the run without it), and an empty turn performs exactly one
fallback request. -/
theorem C7_malformed_frames_skipped_and_fallback_witness :
    processFrames (fun _ => none) ⟨"", false, false, false, false, none, []⟩
        ["data: junk", "rest"]
      = processFrames (fun _ => none) ⟨"", false, false, false, false, none, []⟩ ["rest"]
    ∧ (finishTurn ⟨"", false, false, false, false, none, []⟩ (some "hello")).fallbackRequests = 1 :=
  ⟨C7_malformed_frames_skipped_and_fallback.1 (fun _ => none)
      ⟨"", false, false, false, false, none, []⟩ [] ["rest"] "data: junk"
      (by decide) rfl,
   (C7_malformed_frames_skipped_and_fallback.2
      ⟨"", false, false, false, false, none, []⟩ (some "hello") rfl rfl (by decide)).1⟩

/-- Filtering distributes over document concatenation. -/
lemma placeholderGroupElems_append (es1 es2 : List Element) (g : String) :
    placeholderGroupElems (es1 ++ es2) g
      = placeholderGroupElems es1 g ++ placeholderGroupElems es2 g := by
  simp [placeholderGroupElems]

/-- Filtering a mapped list whose predicate factors through the map. -/
lemma filter_map_eq {α β : Type} (f : α → β) (p : β → Bool) (q : α → Bool) (l : List α)
    (h : ∀ a ∈ l, p (f a) = q a) :
    (l.map f).filter p = (l.filter q).map f := by
  induction l with
  | nil => rfl
  | cons a tl ih =>
      have htl : ∀ x ∈ tl, p (f x) = q x := fun x hx => h x (List.mem_cons_of_mem a hx)
      by_cases hq : q a = true <;>
        simp [List.filter_cons, h a (List.mem_cons_self a tl), hq, ih htl]

/-- Association-list lookup over append prefers the left list. -/
lemma lookup_append {β : Type} (k : String) (l1 l2 : List (String × β)) :
    (l1 ++ l2).lookup k = (l1.lookup k).or (l2.lookup k) := by
  induction l1 with
  | nil => simp [List.lookup]
  | cons hd tl ih =>
      rcases hd with ⟨a, b⟩
      by_cases hk : (k == a) = true <;> simp [List.lookup, hk, ih, Option.or]

/-- Placeholder classification only reads the two type keys. -/
lemma isPlaceholderElt_eq_of_cdata (r t : Element)
    (hck : cdata r "aiChatType" = cdata t "aiChatType")
    (hek : cdata r "aiEditType" = cdata t "aiEditType") :
    isPlaceholderElt r = isPlaceholderElt t := by
  unfold isPlaceholderElt
  rw [hck, hek]

/-- Tombstoning does not change the placeholder classification. -/
lemma isPlaceholderElt_tombstone (e : Element) :
    isPlaceholderElt (tombstoneElement e) = isPlaceholderElt e := rfl

/-- The first leg of a pair is a placeholder member of the document with the
pair's group as its only group. -/
lemma pairOf_mem_left {es : List Element} {g : String} {r t : Element}
    (h : pairOf es g r t) : r ∈ es ∧ isPlaceholderElt r = true ∧ r.groupIds = [g] := by
  have h' : placeholderGroupElems es g = [r, t] := h
  have hr : r ∈ placeholderGroupElems es g := by rw [h']; simp
  rcases List.mem_filter.mp hr with ⟨hmem, hpred⟩
  have h12 : isPlaceholderElt r = true ∧ r.groupIds = [g] := by simpa using hpred
  exact ⟨hmem, h12.1, h12.2⟩

/-- The second leg of a pair is a placeholder member of the document with the
pair's group as its only group. -/
lemma pairOf_mem_right {es : List Element} {g : String} {r t : Element}
    (h : pairOf es g r t) : t ∈ es ∧ isPlaceholderElt t = true ∧ t.groupIds = [g] := by
  have h' : placeholderGroupElems es g = [r, t] := h
  have ht : t ∈ placeholderGroupElems es g := by rw [h']; simp
  rcases List.mem_filter.mp ht with ⟨hmem, hpred⟩
  have h12 : isPlaceholderElt t = true ∧ t.groupIds = [g] := by simpa using hpred
  exact ⟨hmem, h12.1, h12.2⟩

/-- With unique ids, id equality forces element equality. -/
lemma elt_id_inj {es : List Element} (hnd : (es.map Element.id).Nodup)
    {a b : Element} (ha : a ∈ es) (hb : b ∈ es) (hid : a.id = b.id) : a = b :=
  List.inj_on_of_nodup_map hnd ha hb hid

/-- A pair in an invariant-satisfying document carries the rectangle+text
shape, synchronized tombstones, and equal type tags. -/
lemma pairOf_props {es : List Element} (hinv : PairInv es) {g : String} {r t : Element}
    (h : pairOf es g r t) :
    r.typ = ElType.rectangle ∧ t.typ = ElType.text ∧ r.isDeleted = t.isDeleted
    ∧ cdata r "aiChatType" = cdata t "aiChatType"
    ∧ cdata r "aiEditType" = cdata t "aiEditType" := by
  have h' : placeholderGroupElems es g = [r, t] := h
  rcases hinv.2.2 g with h0 | ⟨r0, t0, h1, ht1, ht2, hd, hc, he⟩
  · rw [h'] at h0
    cases h0
  · have h2 : r = r0 ∧ t = t0 := by simpa using h'.symm.trans h1
    rcases h2 with ⟨h2r, h2t⟩
    subst h2r
    subst h2t
    exact ⟨ht1, ht2, hd, hc, he⟩

/-- The pair of the handle's own group is exactly the handle's two legs. -/
lemma pair_legs_of_groupId {es : List Element} (hinv : PairInv es) {p : ImagePlaceholder}
    (hv : ValidPair es p) {r t : Element} (h : pairOf es p.groupId r t) :
    r.id = p.rectId ∧ t.id = p.textId := by
  rcases hv with ⟨r0, t0, h0, hr0, ht0⟩
  have h' : placeholderGroupElems es p.groupId = [r, t] := h
  have h2 : r = r0 ∧ t = t0 := by simpa using h'.symm.trans h0
  rcases h2 with ⟨h2r, h2t⟩
  rw [h2r, h2t]
  exact ⟨hr0, ht0⟩

/-- Pairs of other groups never alias the handle's leg ids. -/
lemma pair_legs_disjoint {es : List Element} (hinv : PairInv es) {p : ImagePlaceholder}
    (hv : ValidPair es p) {g : String} {r t : Element} (h : pairOf es g r t)
    (hg : g ≠ p.groupId) :
    (r.id = p.rectId → False) ∧ (r.id = p.textId → False)
    ∧ (t.id = p.rectId → False) ∧ (t.id = p.textId → False) := by
  rcases hv with ⟨r0, t0, h0, hr0, ht0⟩
  have hp0 : pairOf es p.groupId r0 t0 := h0
  have hpr := pairOf_mem_left h
  have hpt := pairOf_mem_right h
  have hpr0 := pairOf_mem_left hp0
  have hpt0 := pairOf_mem_right hp0
  refine ⟨?_, ?_, ?_, ?_⟩ <;> intro hid
  · have heq : r = r0 := elt_id_inj hinv.1 hpr.1 hpr0.1 (hid.trans hr0.symm)
    have hgg : ([g] : List String) = [p.groupId] := by
      rw [← hpr.2.2, heq, hpr0.2.2]
    exact hg (by simpa using hgg)
  · have heq : r = t0 := elt_id_inj hinv.1 hpr.1 hpt0.1 (hid.trans ht0.symm)
    have hgg : ([g] : List String) = [p.groupId] := by
      rw [← hpr.2.2, heq, hpt0.2.2]
    exact hg (by simpa using hgg)
  · have heq : t = r0 := elt_id_inj hinv.1 hpt.1 hpr0.1 (hid.trans hr0.symm)
    have hgg : ([g] : List String) = [p.groupId] := by
      rw [← hpt.2.2, heq, hpr0.2.2]
    exact hg (by simpa using hgg)
  · have heq : t = t0 := elt_id_inj hinv.1 hpt.1 hpt0.1 (hid.trans ht0.symm)
    have hgg : ([g] : List String) = [p.groupId] := by
      rw [← hpt.2.2, heq, hpt0.2.2]
    exact hg (by simpa using hgg)

/-- Master preservation lemma: an element-wise rewrite that keeps ids, types,
groups and placeholder classification, and acts uniformly on every pair's
tombstone flag and type tags, preserves the pair invariant. -/
lemma pairInv_map {es : List Element} {f : Element → Element} (hinv : PairInv es)
    (hid : ∀ e ∈ es, (f e).id = e.id)
    (htyp : ∀ e ∈ es, (f e).typ = e.typ)
    (hgrp : ∀ e ∈ es, (f e).groupIds = e.groupIds)
    (hpl : ∀ e ∈ es, isPlaceholderElt (f e) = isPlaceholderElt e)
    (hdel : ∀ g r t, pairOf es g r t → (f r).isDeleted = (f t).isDeleted)
    (hkeq : ∀ g r t, pairOf es g r t →
        cdata (f r) "aiChatType" = cdata (f t) "aiChatType"
        ∧ cdata (f r) "aiEditType" = cdata (f t) "aiEditType") :
    PairInv (es.map f) := by
  have hfilter : ∀ g, placeholderGroupElems (es.map f) g
      = (placeholderGroupElems es g).map f := by
    intro g
    unfold placeholderGroupElems
    apply filter_map_eq
    intro e he
    rw [hpl e he, hgrp e he]
  refine ⟨?_, ?_, ?_⟩
  · have h1 : List.map (Element.id ∘ f) es = List.map Element.id es :=
      List.map_congr_left (fun e he => hid e he)
    rw [List.map_map, h1]
    exact hinv.1
  · intro e2 he2 hple
    rcases List.mem_map.mp he2 with ⟨e, he, rfl⟩
    rw [hpl e he] at hple
    rcases hinv.2.1 e he hple with ⟨g, hgm⟩
    exact ⟨g, by rw [hgrp e he, hgm]⟩
  · intro g
    rw [hfilter g]
    rcases hinv.2.2 g with h0 | ⟨r, t, heq, ht1, ht2, _, _, _⟩
    · left
      rw [h0]
      rfl
    · right
      have hpair : pairOf es g r t := heq
      refine ⟨f r, f t, ?_, ?_, ?_, ?_, (hkeq g r t hpair).1, (hkeq g r t hpair).2⟩
      · rw [heq]
        rfl
      · rw [htyp r (pairOf_mem_left hpair).1, ht1]
      · rw [htyp t (pairOf_mem_right hpair).1, ht2]
      · exact hdel g r t hpair

/-- Pointwise corollary: a rewrite that keeps every modelled field except
position and content data preserves the pair invariant. -/
lemma pairInv_map_pointwise {es : List Element} {f : Element → Element} (hinv : PairInv es)
    (h : ∀ e ∈ es, (f e).id = e.id ∧ (f e).typ = e.typ ∧ (f e).groupIds = e.groupIds
        ∧ (f e).isDeleted = e.isDeleted ∧ (f e).customData = e.customData) :
    PairInv (es.map f) := by
  have hcd : ∀ e ∈ es, ∀ k, cdata (f e) k = cdata e k := by
    intro e he k
    unfold cdata
    rw [(h e he).2.2.2.2]
  apply pairInv_map hinv
  · intro e he
    exact (h e he).1
  · intro e he
    exact (h e he).2.1
  · intro e he
    exact (h e he).2.2.1
  · intro e he
    unfold isPlaceholderElt
    rw [hcd e he "aiChatType", hcd e he "aiEditType"]
  · intro g r t hp
    rw [(h r (pairOf_mem_left hp).1).2.2.2.1, (h t (pairOf_mem_right hp).1).2.2.2.1]
    exact (pairOf_props hinv hp).2.2.1
  · intro g r t hp
    constructor
    · rw [hcd r (pairOf_mem_left hp).1 "aiChatType", hcd t (pairOf_mem_right hp).1 "aiChatType"]
      exact (pairOf_props hinv hp).2.2.2.1
    · rw [hcd r (pairOf_mem_left hp).1 "aiEditType", hcd t (pairOf_mem_right hp).1 "aiEditType"]
      exact (pairOf_props hinv hp).2.2.2.2

/-- Conditional tombstoning that only targets the two legs of one valid pair
and tombstones them in lock-step preserves the pair invariant. -/
lemma pairInv_cond_tombstone {es : List Element} {p : ImagePlaceholder}
    (cond : Element → Prop) [DecidablePred cond]
    (hinv : PairInv es) (hv : ValidPair es p)
    (hc : ∀ e ∈ es, cond e → e.id = p.rectId ∨ e.id = p.textId)
    (hboth : ∀ r t, pairOf es p.groupId r t →
        ((if cond r then true else r.isDeleted) = (if cond t then true else t.isDeleted))) :
    PairInv (es.map (fun e => if cond e then tombstoneElement e else e)) := by
  apply pairInv_map hinv
  · intro e he
    by_cases hce : cond e <;> simp [hce, tombstoneElement]
  · intro e he
    by_cases hce : cond e <;> simp [hce, tombstoneElement]
  · intro e he
    by_cases hce : cond e <;> simp [hce, tombstoneElement]
  · intro e he
    by_cases hce : cond e <;> simp [hce, isPlaceholderElt_tombstone]
  · intro g r t hp
    by_cases hg : g = p.groupId
    · subst hg
      have hb := hboth r t hp
      have hfr : ((if cond r then tombstoneElement r else r)).isDeleted
          = (if cond r then true else r.isDeleted) := by
        by_cases hcr : cond r <;> simp [hcr, tombstoneElement]
      have hft : ((if cond t then tombstoneElement t else t)).isDeleted
          = (if cond t then true else t.isDeleted) := by
        by_cases hct : cond t <;> simp [hct, tombstoneElement]
      rw [hfr, hft]
      exact hb
    · have hdisj := pair_legs_disjoint hinv hv hp hg
      have hcr : ¬ cond r := by
        intro hcc
        rcases hc r (pairOf_mem_left hp).1 hcc with h1 | h1
        · exact hdisj.1 h1
        · exact hdisj.2.1 h1
      have hct : ¬ cond t := by
        intro hcc
        rcases hc t (pairOf_mem_right hp).1 hcc with h1 | h1
        · exact hdisj.2.2.1 h1
        · exact hdisj.2.2.2 h1
      rw [if_neg hcr, if_neg hct]
      exact (pairOf_props hinv hp).2.2.1
  · intro g r t hp
    have hr : ∀ k, cdata (if cond r then tombstoneElement r else r) k = cdata r k := by
      intro k
      by_cases hcr : cond r <;> simp [hcr, tombstoneElement, cdata]
    have ht : ∀ k, cdata (if cond t then tombstoneElement t else t) k = cdata t k := by
      intro k
      by_cases hct : cond t <;> simp [hct, tombstoneElement, cdata]
    constructor
    · rw [hr "aiChatType", ht "aiChatType"]
      exact (pairOf_props hinv hp).2.2.2.1
    · rw [hr "aiEditType", ht "aiEditType"]
      exact (pairOf_props hinv hp).2.2.2.2

/-- Appending a fresh rectangle+label pair under a fresh group id preserves
the pair invariant. -/
lemma pairInv_append_pair {es : List Element} {r t : Element} {g : String}
    (hinv : PairInv es)
    (hg : ∀ e ∈ es, g ∉ e.groupIds)
    (hr : r.id ∉ es.map Element.id) (ht : t.id ∉ es.map Element.id)
    (hne : r.id ≠ t.id)
    (hrg : r.groupIds = [g]) (htg : t.groupIds = [g])
    (hrt : r.typ = ElType.rectangle) (htt : t.typ = ElType.text)
    (hrd : r.isDeleted = t.isDeleted)
    (hck : cdata r "aiChatType" = cdata t "aiChatType")
    (hek : cdata r "aiEditType" = cdata t "aiEditType") :
    PairInv (es ++ [r, t]) := by
  refine ⟨?_, ?_, ?_⟩
  · rw [List.map_append, List.nodup_append]
    refine ⟨hinv.1, by simp [hne], ?_⟩
    intro a ha hb
    simp only [List.map_cons, List.map_nil, List.mem_cons, List.not_mem_nil, or_false,
      List.mem_singleton] at hb
    rcases hb with rfl | rfl
    · exact hr ha
    · exact ht ha
  · intro e he hple
    rcases List.mem_append.mp he with he1 | he2
    · exact hinv.2.1 e he1 hple
    · simp only [List.mem_cons, List.not_mem_nil, or_false, List.mem_singleton] at he2
      rcases he2 with rfl | rfl
      · exact ⟨g, hrg⟩
      · exact ⟨g, htg⟩
  · intro g'
    by_cases hgg : g' = g
    · subst hgg
      have h1 : placeholderGroupElems es g' = [] := by
        unfold placeholderGroupElems
        rw [List.filter_eq_nil_iff]
        intro e he hpe
        have h2 : e.groupIds = [g'] := by
          have h3 : isPlaceholderElt e = true ∧ e.groupIds = [g'] := by simpa using hpe
          exact h3.2
        exact hg e he (by rw [h2]; simp)
      have hiso : isPlaceholderElt r = isPlaceholderElt t :=
        isPlaceholderElt_eq_of_cdata r t hck hek
      cases hplr : isPlaceholderElt r with
      | false =>
          left
          have hplt : isPlaceholderElt t = false := by rw [← hiso]; exact hplr
          rw [placeholderGroupElems_append, h1]
          simp [placeholderGroupElems, hplr, hplt]
      | true =>
          right
          have hplt : isPlaceholderElt t = true := by rw [← hiso]; exact hplr
          refine ⟨r, t, ?_, hrt, htt, hrd, hck, hek⟩
          rw [placeholderGroupElems_append, h1]
          simp [placeholderGroupElems, hplr, hplt, hrg, htg]
    · have h2 : placeholderGroupElems [r, t] g' = [] := by
        unfold placeholderGroupElems
        rw [List.filter_eq_nil_iff]
        intro e he hpe
        have h3 : isPlaceholderElt e = true ∧ e.groupIds = [g'] := by simpa using hpe
        simp only [List.mem_cons, List.not_mem_nil, or_false, List.mem_singleton] at he
        rcases he with rfl | rfl
        · rw [hrg] at h3
          exact hgg (by simpa using h3.2.symm)
        · rw [htg] at h3
          exact hgg (by simpa using h3.2.symm)
      rw [placeholderGroupElems_append, h2, List.append_nil]
      exact hinv.2.2 g'

/-- Appending a fresh non-placeholder element preserves the pair invariant. -/
lemma pairInv_append_nonplaceholder {es : List Element} {e : Element}
    (hinv : PairInv es) (hp : isPlaceholderElt e = false)
    (hfresh : e.id ∉ es.map Element.id) :
    PairInv (es ++ [e]) := by
  refine ⟨?_, ?_, ?_⟩
  · rw [List.map_append, List.nodup_append]
    refine ⟨hinv.1, by simp, ?_⟩
    intro a ha hb
    simp only [List.map_cons, List.map_nil, List.mem_singleton] at hb
    subst hb
    exact hfresh ha
  · intro x hx hplx
    rcases List.mem_append.mp hx with h1 | h2
    · exact hinv.2.1 x h1 hplx
    · simp only [List.mem_singleton] at h2
      subst h2
      rw [hp] at hplx
      cases hplx
  · intro g
    have h2 : placeholderGroupElems [e] g = [] := by
      simp [placeholderGroupElems, hp]
    rw [placeholderGroupElems_append, h2, List.append_nil]
    exact hinv.2.2 g

/-- Tombstoning both legs of a pair does not change the id map. -/
lemma tombstonePairAll_map_id (p : ImagePlaceholder) (es : List Element) :
    (tombstonePairAll p es).map Element.id = es.map Element.id := by
  unfold tombstonePairAll
  rw [List.map_map]
  apply List.map_congr_left
  intro e he
  by_cases h : (e.id == p.rectId || e.id == p.textId) = true <;>
    simp [Function.comp, h, tombstoneElement]

/-- The placeholder-retiring helper either leaves the document unchanged or
tombstones the live legs of the pair. -/
lemma removePlaceholderIfPresent_fst (p : ImagePlaceholder) (es : List Element) :
    (removePlaceholderIfPresent (some p) es).1 = es
    ∨ (removePlaceholderIfPresent (some p) es).1 = tombstonePairLive p es := by
  by_cases h : (es.any fun e => (e.id == p.rectId || e.id == p.textId) && !e.isDeleted) = true
  · right
    simp only [removePlaceholderIfPresent]
    rw [if_pos h]
    rfl
  · left
    simp only [removePlaceholderIfPresent]
    rw [if_neg h]

/-- Metadata read through a merge: an overridden key reads the override,
any other key reads the original element. -/
lemma cdata_merge (e : Element) (meta : List (String × Json)) (k : String) :
    cdata { e with customData := mergeMeta e.customData meta, version := e.version + 1 } k
      = match meta.lookup k with
        | some v => v
        | none => cdata e k := by
  unfold cdata mergeMeta
  rw [lookup_append]
  cases hm : meta.lookup k <;> simp [Option.or]

/-- The final image element inserted by insertEditedImage carries no
placeholder type tags, whatever job id and order tags it resolves. -/
lemma isPlaceholderElt_createImage_aux (imgId : String) (q1 q2 q3 q4 : ℚ)
    (fid : Option String) (a1 : Json) (u : String)
    (optJob : Option String) (optOrd : Option Int) :
    isPlaceholderElt (createImageElement imgId q1 q2 q3 q4 fid
      ([("aiEditSourceId", Json.str "selection"), ("aiEditAssetId", a1),
        ("aiEditImageUrl", Json.str u)]
       ++ (match optJob with
           | some j => [("aiEditJobId", Json.str j)]
           | none => [])
       ++ (match optOrd with
           | some o => [("aiEditOrder", Json.num o)]
           | none => []))) = false := by
  rcases optJob with _ | j <;> rcases optOrd with _ | o <;>
    simp [isPlaceholderElt, createImageElement, cdata, List.lookup, jsonEqStr]

/-- Every outcome of a sequential insertEditedImage call on a placeholder is
the unchanged document, the pair tombstoned in lock-step, or the pair
tombstoned in lock-step plus one fresh non-placeholder image element. -/
lemma insertEditedImage_shape (es : List Element) (bounds : SelectionBounds)
    (result : ToolResultData) (p : ImagePlaceholder)
    (load : Option (Option ℚ × Option ℚ)) (fileId imgId : String) :
    (insertEditedImage true es es bounds result (some p) load fileId imgId).1 = es
    ∨ (insertEditedImage true es es bounds result (some p) load fileId imgId).1
        = tombstonePairLive p es
    ∨ ∃ img, (insertEditedImage true es es bounds result (some p) load fileId imgId).1
          = tombstonePairAll p es ++ [img]
        ∧ isPlaceholderElt img = false ∧ img.id = imgId := by
  simp only [insertEditedImage]
  split
  · left
    rfl
  · split
    · left
      rfl
    · split
      · left
        rfl
      · split
        · rcases removePlaceholderIfPresent_fst p es with h | h
          · exact Or.inl h
          · exact Or.inr (Or.inl h)
        · split
          · left
            rfl
          · refine Or.inr (Or.inr ⟨_, rfl, ?_, rfl⟩)
            exact isPlaceholderElt_createImage_aux _ _ _ _ _ _ _ _ _ _

/-- The empty document satisfies the pair invariant. -/
lemma pairInv_nil : PairInv [] := by
  refine ⟨by simp, by simp, ?_⟩
  intro g
  left
  rfl

/-- C6: In every document reachable from the empty document through the
placeholder-manager operations (placeholder creation, pinning of
non-placeholder elements, pair removal, edit-result resolution, label
rewrapping, metadata merge), every placeholder consists of exactly one
rectangle element and one label text element sharing exactly one common
group id, and the two legs are only ever tombstoned together: in no
reachable state is one leg of a pair tombstoned while the other is live. -/
theorem C6_placeholder_pair_invariant (es : List Element) (h : DocReach es) :
    PairInv es ∧ ∀ g r t, pairOf es g r t → r.isDeleted = t.isDeleted := by
  have hinv : PairInv es := by
    induction h with
    | init => exact pairInv_nil
    | @step es1 es2 hd hs ih =>
        cases hs with
        | createChatPlaceholder rid tid g kindVideo jobId label createdAt x y hg hr ht hne =>
            exact pairInv_append_pair ih hg hr ht hne rfl rfl rfl rfl rfl rfl rfl
        | appendEditPlaceholderPair rid tid g index label createdAt x y w hh hg hr ht hne =>
            exact pairInv_append_pair ih hg hr ht hne rfl rfl rfl rfl rfl rfl rfl
        | pinElement e hp hfresh =>
            exact pairInv_append_nonplaceholder ih hp hfresh
        | removePair p hv =>
            unfold removeElementsById
            refine pairInv_cond_tombstone (fun e => e.id ∈ [p.rectId, p.textId]) ih hv ?_ ?_
            · intro e he hmem
              simpa using hmem
            · intro r t hp2
              obtain ⟨h1, h2⟩ := pair_legs_of_groupId ih hv hp2
              rw [if_pos (by simp [h1]), if_pos (by simp [h2])]
        | resolvePair p bounds result load fileId imgId hv hfresh =>
            rcases insertEditedImage_shape es1 bounds result p load fileId imgId
              with hsh | hsh | ⟨img, hsh, hplimg, hidimg⟩
            · rw [hsh]
              exact ih
            · rw [hsh]
              unfold tombstonePairLive
              refine pairInv_cond_tombstone
                (fun e => ((e.id == p.rectId || e.id == p.textId) && !e.isDeleted) = true)
                ih hv ?_ ?_
              · intro e he hce
                have h2 : (e.id = p.rectId ∨ e.id = p.textId) ∧ e.isDeleted = false := by
                  simpa using hce
                exact h2.1
              · intro r t hp2
                obtain ⟨h1, h2⟩ := pair_legs_of_groupId ih hv hp2
                beta_reduce
                cases hd1 : r.isDeleted <;> cases hd2 : t.isDeleted <;>
                  simp [h1, h2, hd1, hd2]
            · rw [hsh]
              have hall : PairInv (tombstonePairAll p es1) := by
                unfold tombstonePairAll
                refine pairInv_cond_tombstone
                  (fun e => (e.id == p.rectId || e.id == p.textId) = true) ih hv ?_ ?_
                · intro e he hce
                  simpa using hce
                · intro r t hp2
                  obtain ⟨h1, h2⟩ := pair_legs_of_groupId ih hv hp2
                  simp [h1, h2]
              refine pairInv_append_nonplaceholder hall hplimg ?_
              rw [hidimg, tombstonePairAll_map_id]
              exact hfresh
        | updateTextStep p w hh =>
            unfold updatePlaceholderText
            cases hf : es1.find? (fun (e : Element) => e.id == p.textId && !e.isDeleted) with
            | none => exact ih
            | some target =>
                have hmem : target ∈ es1 := List.mem_of_find?_eq_some hf
                have hpred := List.find?_some hf
                have htid : target.id = p.textId := by
                  have h2 : target.id = p.textId ∧ target.isDeleted = false := by
                    simpa using hpred
                  exact h2.1
                apply pairInv_map_pointwise ih
                intro e he
                by_cases hid2 : (e.id == p.textId) = true
                · have heq : e = target := elt_id_inj ih.1 he hmem (by
                    have h3 : e.id = p.textId := by simpa using hid2
                    rw [h3, htid])
                  subst heq
                  simp [hid2]
                · simp [hid2]
        | updateMetaStep p meta hv hmeta =>
            unfold updatePlaceholderMeta
            apply pairInv_map ih
            · intro e he
              by_cases h1 : e.isDeleted = true
              · simp [h1]
              · by_cases h2 : (e.id == p.rectId || e.id == p.textId) = true <;> simp [h1, h2]
            · intro e he
              by_cases h1 : e.isDeleted = true
              · simp [h1]
              · by_cases h2 : (e.id == p.rectId || e.id == p.textId) = true <;> simp [h1, h2]
            · intro e he
              by_cases h1 : e.isDeleted = true
              · simp [h1]
              · by_cases h2 : (e.id == p.rectId || e.id == p.textId) = true <;> simp [h1, h2]
            · intro e he
              by_cases h1 : e.isDeleted = true
              · simp [h1]
              · by_cases h2 : (e.id == p.rectId || e.id == p.textId) = true
                · rw [if_neg h1, if_pos h2]
                  exact hmeta e he
                · rw [if_neg h1, if_neg h2]
            · intro g r t hp2
              have key : ∀ e : Element,
                  (if e.isDeleted then e
                   else if e.id == p.rectId || e.id == p.textId
                   then { e with customData := mergeMeta e.customData meta, version := e.version + 1 }
                   else e).isDeleted = e.isDeleted := by
                intro e
                by_cases h1 : e.isDeleted = true
                · simp [h1]
                · by_cases h2 : (e.id == p.rectId || e.id == p.textId) = true <;> simp [h1, h2]
              rw [key r, key t]
              exact (pairOf_props ih hp2).2.2.1
            · intro g r t hp2
              by_cases hg2 : g = p.groupId
              · subst hg2
                obtain ⟨hrid, htid⟩ := pair_legs_of_groupId ih hv hp2
                obtain ⟨_, _, hdel2, hck2, hek2⟩ := pairOf_props ih hp2
                by_cases h1 : r.isDeleted = true
                · have h2 : t.isDeleted = true := by rw [← hdel2]; exact h1
                  rw [if_pos h1, if_pos h2]
                  exact ⟨hck2, hek2⟩
                · have h2 : ¬ (t.isDeleted = true) := by rw [← hdel2]; exact h1
                  have hr2 : (r.id == p.rectId || r.id == p.textId) = true := by simp [hrid]
                  have ht2 : (t.id == p.rectId || t.id == p.textId) = true := by simp [htid]
                  rw [if_neg h1, if_neg h2, if_pos hr2, if_pos ht2]
                  constructor
                  · rw [cdata_merge, cdata_merge]
                    cases hm : meta.lookup "aiChatType" <;> simp [hm]
                    exact hck2
                  · rw [cdata_merge, cdata_merge]
                    cases hm : meta.lookup "aiEditType" <;> simp [hm]
                    exact hek2
              · obtain hdisj := pair_legs_disjoint ih hv hp2 hg2
                have hr2 : ¬ ((r.id == p.rectId || r.id == p.textId) = true) := by
                  intro hcc
                  have h3 : r.id = p.rectId ∨ r.id = p.textId := by simpa using hcc
                  rcases h3 with h3 | h3
                  · exact hdisj.1 h3
                  · exact hdisj.2.1 h3
                have ht2 : ¬ ((t.id == p.rectId || t.id == p.textId) = true) := by
                  intro hcc
                  have h3 : t.id = p.rectId ∨ t.id = p.textId := by simpa using hcc
                  rcases h3 with h3 | h3
                  · exact hdisj.2.2.1 h3
                  · exact hdisj.2.2.2 h3
                have key2 : ∀ e : Element, ¬ ((e.id == p.rectId || e.id == p.textId) = true) →
                    (if e.isDeleted then e
                     else if e.id == p.rectId || e.id == p.textId
                     then { e with customData := mergeMeta e.customData meta, version := e.version + 1 }
                     else e) = e := by
                  intro e h2
                  by_cases h1 : e.isDeleted = true <;> simp [h1, h2]
                rw [key2 r hr2, key2 t ht2]
                exact ⟨(pairOf_props ih hp2).2.2.2.1, (pairOf_props ih hp2).2.2.2.2⟩
  exact ⟨hinv, fun g r t hp2 => (pairOf_props hinv hp2).2.2.1⟩

/-- Witness for C6 at a concrete reachable document: creating one chat image
placeholder in the empty document yields a document satisfying the pair
invariant with both legs tombstoned in lock-step. -/
theorem C6_placeholder_pair_invariant_witness :
    PairInv ([] ++ [(mkChatPlaceholderPair "rect-1" "text-1" "group-1" false none
                      "Generating" "t0" 0 0).1,
                    (mkChatPlaceholderPair "rect-1" "text-1" "group-1" false none
                      "Generating" "t0" 0 0).2])
    ∧ ∀ g r t, pairOf ([] ++ [(mkChatPlaceholderPair "rect-1" "text-1" "group-1" false none
                      "Generating" "t0" 0 0).1,
                    (mkChatPlaceholderPair "rect-1" "text-1" "group-1" false none
                      "Generating" "t0" 0 0).2]) g r t
        → r.isDeleted = t.isDeleted :=
  C6_placeholder_pair_invariant _
    (DocReach.step DocReach.init
      (DocStep.createChatPlaceholder [] "rect-1" "text-1" "group-1" false none
        "Generating" "t0" 0 0 (by simp) (by simp) (by simp) (by decide)))

end Canvex
